import Mathlib

/-!
Verification development for the paperclip schema/document conversion core.

The development shallowly embeds two parts of the repository:

* `src/core/src/v3/schema.rs` and `src/core/src/v3/operation.rs`: the
  conversion of an OpenAPI v2 document model to the v3 (openapiv3) model.
* `src/macros/src/actix.rs`: the runtime semantics of the code generated by
  `emit_v2_definition` (the `Apiv2Schema` derive), i.e. the schema value that
  the generated `raw_schema()` function builds from a type description.

Rust machine types are mapped as follows: `u16`/`u32`/`usize` become `Nat`,
`i64` becomes `Int`, `f32`/`f64` become `Rat` (no claim depends on float
rounding or special values), `BTreeMap`/`BTreeSet` become sorted association
lists maintained by sorted insertion, `IndexMap` becomes an association list
with insertion-order semantics (replace in place, append when fresh), and
`Box` is erased.  Recursive Rust structs are encoded as one-constructor
inductives over a parametric base structure because Lean structures cannot be
recursive.

Definitions whose Rust source lives outside `src/` (the v2 data-model structs,
the parameter/reference/response `From` impls and `Apiv2Schema::schema_with_ref`
from the core crate) are modelled from the spec; each such definition carries a
doc comment starting with "Modelled from the spec:".
-/

/-- JSON values (`serde_json::Value`); numbers are modelled as integers, which
covers every literal the embedded code constructs. -/
inductive Json : Type where
  | null : Json
  | bool (b : Bool) : Json
  | num (n : Int) : Json
  | str (s : String) : Json
  | arr (xs : List Json) : Json
  | obj (xs : List (String × Json)) : Json

/-- Either type mirroring `paperclip::v2::models::Either`. -/
inductive Either (α β : Type) : Type where
  | left (a : α) : Either α β
  | right (b : β) : Either α β
  deriving DecidableEq

/-- Sorted-map insertion mirroring `BTreeMap::insert`: keys are kept in
ascending order and an existing key's value is replaced in place. -/
def btreeInsert {α : Type} (k : String) (v : α) : List (String × α) → List (String × α)
  | [] => [(k, v)]
  | (k0, v0) :: rest =>
    if k < k0 then (k, v) :: (k0, v0) :: rest
    else if k = k0 then (k, v) :: rest
    else (k0, v0) :: btreeInsert k v rest

/-- Sorted-set insertion mirroring `BTreeSet::insert`. -/
def btreeSetInsert (k : String) : List String → List String
  | [] => [k]
  | k0 :: rest =>
    if k < k0 then k :: k0 :: rest
    else if k = k0 then k0 :: rest
    else k0 :: btreeSetInsert k rest

/-- Insertion-ordered map insertion mirroring `IndexMap::insert`: an existing
key keeps its position and gets the new value, a fresh key is appended. -/
def indexInsert {α : Type} (k : String) (v : α) : List (String × α) → List (String × α)
  | [] => [(k, v)]
  | (k0, v0) :: rest =>
    if k0 = k then (k, v) :: rest else (k0, v0) :: indexInsert k v rest

/-- Insertion-ordered map insertion for numeric keys (the v3 responses map is
an `IndexMap<StatusCode, _>`; only the `Code` branch of `StatusCode` is ever
constructed by the embedded code, so keys are plain numbers). -/
def indexInsertNat {α : Type} (k : Nat) (v : α) : List (Nat × α) → List (Nat × α)
  | [] => [(k, v)]
  | (k0, v0) :: rest =>
    if k0 = k then (k, v) :: rest else (k0, v0) :: indexInsertNat k v rest

/-- Data kinds of the v2 schema model (`paperclip::v2::models::DataType`). -/
inductive DataType : Type where
  | integer | number | string | boolean | array | object | file
  deriving DecidableEq

/-- Debug rendering of a `DataType` (Rust derives `Debug`, which prints the
variant identifier). -/
def DataType.debugStr : DataType → String
  | .integer => "Integer"
  | .number => "Number"
  | .string => "String"
  | .boolean => "Boolean"
  | .array => "Array"
  | .object => "Object"
  | .file => "File"

/-- Format refinements of the v2 schema model
(`paperclip::v2::models::DataTypeFormat`).  The type is declared outside
`src/`; the model lists the variants named by the code under `src/` plus
representatives (`url`, `uuid`, `ip`, `other`) of the remaining ones. -/
inductive DataTypeFormat : Type where
  | int32 | int64 | float | double | byte | binary | date | dateTime
  | password | url | uuid | ip | other
  deriving DecidableEq

/-- Debug rendering of a `DataTypeFormat` (derived `Debug` prints the variant
identifier). -/
def DataTypeFormat.debugStr : DataTypeFormat → String
  | .int32 => "Int32"
  | .int64 => "Int64"
  | .float => "Float"
  | .double => "Double"
  | .byte => "Byte"
  | .binary => "Binary"
  | .date => "Date"
  | .dateTime => "DateTime"
  | .password => "Password"
  | .url => "Url"
  | .uuid => "Uuid"
  | .ip => "Ip"
  | .other => "Other"

/-- Display rendering of a `DataTypeFormat` (its serialized name). -/
def DataTypeFormat.displayStr : DataTypeFormat → String
  | .int32 => "int32"
  | .int64 => "int64"
  | .float => "float"
  | .double => "double"
  | .byte => "byte"
  | .binary => "binary"
  | .date => "date"
  | .dateTime => "date-time"
  | .password => "password"
  | .url => "url"
  | .uuid => "uuid"
  | .ip => "ip"
  | .other => "other"

/-- Base functor of `paperclip::v2::models::DefaultSchemaRaw`; `σ` stands for
the recursive occurrences (`Box<DefaultSchemaRaw>` in Rust, the box is
erased).  `properties` is a `BTreeMap`, `required` a `BTreeSet`, `extensions`
a `BTreeMap` of vendor values. -/
structure SchemaRawF (σ : Type) where
  name : Option String := none
  reference : Option String := none
  data_type : Option DataType := none
  format : Option DataTypeFormat := none
  description : Option String := none
  title : Option String := none
  «example» : Option Json := none
  properties : List (String × σ) := []
  required : List String := []
  items : Option σ := none
  enum_ : List Json := []
  const_ : Option Json := none
  any_of : List σ := []
  all_of : List σ := []
  extensions : List (String × Json) := []

/-- The recursive v2 schema node (`DefaultSchemaRaw`). -/
inductive DefaultSchemaRaw : Type where
  | mk (s : SchemaRawF DefaultSchemaRaw)

/-- Unfolds the one-constructor wrapper of `DefaultSchemaRaw`. -/
def DefaultSchemaRaw.un : DefaultSchemaRaw → SchemaRawF DefaultSchemaRaw
  | .mk s => s

instance : Inhabited DefaultSchemaRaw := ⟨.mk {}⟩

def DefaultSchemaRaw.name (s : DefaultSchemaRaw) : Option String := s.un.name
def DefaultSchemaRaw.reference (s : DefaultSchemaRaw) : Option String := s.un.reference
def DefaultSchemaRaw.data_type (s : DefaultSchemaRaw) : Option DataType := s.un.data_type
def DefaultSchemaRaw.format (s : DefaultSchemaRaw) : Option DataTypeFormat := s.un.format
def DefaultSchemaRaw.description (s : DefaultSchemaRaw) : Option String := s.un.description
def DefaultSchemaRaw.title (s : DefaultSchemaRaw) : Option String := s.un.title
def DefaultSchemaRaw.exampleJson (s : DefaultSchemaRaw) : Option Json := s.un.«example»
def DefaultSchemaRaw.properties (s : DefaultSchemaRaw) : List (String × DefaultSchemaRaw) :=
  s.un.properties
def DefaultSchemaRaw.required (s : DefaultSchemaRaw) : List String := s.un.required
def DefaultSchemaRaw.items (s : DefaultSchemaRaw) : Option DefaultSchemaRaw := s.un.items
def DefaultSchemaRaw.enum_ (s : DefaultSchemaRaw) : List Json := s.un.enum_
def DefaultSchemaRaw.const_ (s : DefaultSchemaRaw) : Option Json := s.un.const_
def DefaultSchemaRaw.any_of (s : DefaultSchemaRaw) : List DefaultSchemaRaw := s.un.any_of
def DefaultSchemaRaw.all_of (s : DefaultSchemaRaw) : List DefaultSchemaRaw := s.un.all_of
def DefaultSchemaRaw.extensions (s : DefaultSchemaRaw) : List (String × Json) := s.un.extensions

/-- Field update: `schema.name = v`. -/
def DefaultSchemaRaw.withName (s : DefaultSchemaRaw) (v : Option String) : DefaultSchemaRaw :=
  .mk { s.un with name := v }

/-- Field update: `schema.reference = v`. -/
def DefaultSchemaRaw.withReference (s : DefaultSchemaRaw) (v : Option String) : DefaultSchemaRaw :=
  .mk { s.un with reference := v }

/-- Field update: `schema.data_type = v`. -/
def DefaultSchemaRaw.withDataType (s : DefaultSchemaRaw) (v : Option DataType) : DefaultSchemaRaw :=
  .mk { s.un with data_type := v }

/-- Field update: `schema.description = v`. -/
def DefaultSchemaRaw.withDescription (s : DefaultSchemaRaw) (v : Option String) :
    DefaultSchemaRaw :=
  .mk { s.un with description := v }

/-- Field update: `schema.example = v`. -/
def DefaultSchemaRaw.withExample (s : DefaultSchemaRaw) (v : Option Json) : DefaultSchemaRaw :=
  .mk { s.un with «example» := v }

/-- Statement `schema.enum_.push(v)`. -/
def DefaultSchemaRaw.pushEnum (s : DefaultSchemaRaw) (v : Json) : DefaultSchemaRaw :=
  .mk { s.un with enum_ := s.un.enum_ ++ [v] }

/-- Statement `schema.any_of.push(v)`. -/
def DefaultSchemaRaw.pushAnyOf (s : DefaultSchemaRaw) (v : DefaultSchemaRaw) : DefaultSchemaRaw :=
  .mk { s.un with any_of := s.un.any_of ++ [v] }

/-- Statement `schema.all_of.push(v)`. -/
def DefaultSchemaRaw.pushAllOf (s : DefaultSchemaRaw) (v : DefaultSchemaRaw) : DefaultSchemaRaw :=
  .mk { s.un with all_of := s.un.all_of ++ [v] }

/-- Statement `schema.properties.insert(k, v)` (`BTreeMap` semantics). -/
def DefaultSchemaRaw.insertProperty (s : DefaultSchemaRaw) (k : String) (v : DefaultSchemaRaw) :
    DefaultSchemaRaw :=
  .mk { s.un with properties := btreeInsert k v s.un.properties }

/-- Statement `schema.required.insert(k)` (`BTreeSet` semantics). -/
def DefaultSchemaRaw.insertRequired (s : DefaultSchemaRaw) (k : String) : DefaultSchemaRaw :=
  .mk { s.un with required := btreeSetInsert k s.un.required }

/-- Statement `schema.extensions.insert(k, v)` (`BTreeMap` semantics). -/
def DefaultSchemaRaw.insertExtension (s : DefaultSchemaRaw) (k : String) (v : Json) :
    DefaultSchemaRaw :=
  .mk { s.un with extensions := btreeInsert k v s.un.extensions }

/-- Base functor of `paperclip::v2::models::Items` (the v2 item schema); the
type is declared outside `src/`, its fields are exactly those read by the
`From<v2::Items>` impl in `src/core/src/v3/schema.rs`. -/
structure ItemsF (σ : Type) where
  data_type : Option DataType := none
  format : Option DataTypeFormat := none
  multiple_of : Option Rat := none
  exclusive_minimum : Option Bool := none
  exclusive_maximum : Option Bool := none
  minimum : Option Rat := none
  maximum : Option Rat := none
  enum_ : List Json := []
  pattern : Option String := none
  min_length : Option Nat := none
  max_length : Option Nat := none
  items : Option σ := none
  min_items : Option Nat := none
  max_items : Option Nat := none
  unique_items : Option Bool := none

/-- The recursive v2 item schema (`v2::Items`). -/
inductive Items : Type where
  | mk (s : ItemsF Items)

/-- Unfolds the one-constructor wrapper of `Items`. -/
def Items.un : Items → ItemsF Items
  | .mk s => s

instance : Inhabited Items := ⟨.mk {}⟩

/-- Modelled from the spec: `v2::Reference` (outside `src/`) holds the raw
textual reference of a referenced entity. -/
structure Reference where
  reference : String
  deriving DecidableEq

/-- Parameter locations of the v2 model (`v2::models::ParameterIn`, outside
`src/`); the spec lists path/query/header/body/form. -/
inductive ParameterIn : Type where
  | query | header | path | formData | body
  deriving DecidableEq

/-- Modelled from the spec: `v2::models::Parameter` (outside `src/`).  Per
spec section 3 a parameter has a name, a location, a required flag, a
description, and an embedded schema node (body parameters) or a primitive
data kind and format (non-body parameters; a `file` kind marks an upload). -/
structure Parameter where
  name : String
  in_ : ParameterIn
  description : Option String := none
  required : Bool := false
  schema : Option DefaultSchemaRaw := none
  data_type : Option DataType := none
  format : Option DataTypeFormat := none

/-- Modelled from the spec: `v2::models::Response` (outside `src/`).  Per spec
section 3 a response has a description and an embedded schema node. -/
structure Response where
  description : Option String := none
  schema : Option DefaultSchemaRaw := none

/-- Modelled from the spec: `v2::models::Operation` (outside `src/`), with the
fields read by the converter in `src/core/src/v3/operation.rs`.  `consumes` is
a `BTreeSet` of media ranges (distinct, sorted strings), `responses` and the
inner security maps are `BTreeMap`s (distinct string keys). -/
structure Operation where
  tags : List String := []
  summary : Option String := none
  description : Option String := none
  operation_id : Option String := none
  consumes : Option (List String) := none
  parameters : List (Either Reference Parameter) := []
  responses : List (String × Either Reference Response) := []
  deprecated : Bool := false
  security : List (List (String × List String)) := []

/-- Reference-or-value type of the v3 model (`openapiv3::ReferenceOr`). -/
inductive RefOr (α : Type) : Type where
  | reference (reference : String) : RefOr α
  | item (x : α) : RefOr α

/-- Format slot of the v3 model (`openapiv3::VariantOrUnknownOrEmpty`). -/
inductive VariantOrUnknownOrEmpty (α : Type) : Type where
  | item (x : α) : VariantOrUnknownOrEmpty α
  | unknown (s : String) : VariantOrUnknownOrEmpty α
  | empty : VariantOrUnknownOrEmpty α
  deriving DecidableEq

/-- Integer formats of the v3 model (`openapiv3::IntegerFormat`). -/
inductive IntegerFormat : Type where
  | int32 | int64
  deriving DecidableEq

/-- Number formats of the v3 model (`openapiv3::NumberFormat`). -/
inductive NumberFormat : Type where
  | float | double
  deriving DecidableEq

/-- String formats of the v3 model (`openapiv3::StringFormat`). -/
inductive StringFormat : Type where
  | byte | binary | date | dateTime | password
  deriving DecidableEq

/-- Metadata block of a v3 schema (`openapiv3::SchemaData`); `external_docs`
and `discriminator` are never populated by the embedded code and are modelled
as plain optional strings. -/
structure SchemaData where
  nullable : Bool := false
  read_only : Bool := false
  write_only : Bool := false
  deprecated : Bool := false
  external_docs : Option String := none
  «example» : Option Json := none
  title : Option String := none
  description : Option String := none
  discriminator : Option String := none
  default : Option Json := none
  extensions : List (String × Json) := []

/-- String type of the v3 model (`openapiv3::StringType`). -/
structure StringType where
  format : VariantOrUnknownOrEmpty StringFormat := .empty
  pattern : Option String := none
  enumeration : List (Option String) := []
  min_length : Option Nat := none
  max_length : Option Nat := none

/-- Number type of the v3 model (`openapiv3::NumberType`). -/
structure NumberType where
  format : VariantOrUnknownOrEmpty NumberFormat := .empty
  multiple_of : Option Rat := none
  exclusive_minimum : Bool := false
  exclusive_maximum : Bool := false
  minimum : Option Rat := none
  maximum : Option Rat := none
  enumeration : List (Option Rat) := []

/-- Integer type of the v3 model (`openapiv3::IntegerType`). -/
structure IntegerType where
  format : VariantOrUnknownOrEmpty IntegerFormat := .empty
  multiple_of : Option Int := none
  exclusive_minimum : Bool := false
  exclusive_maximum : Bool := false
  minimum : Option Int := none
  maximum : Option Int := none
  enumeration : List (Option Int) := []

/-- Base functor of `openapiv3::ObjectType`; `σ` stands for the recursive
schema occurrences. -/
structure ObjectTypeF (σ : Type) where
  properties : List (String × RefOr σ) := []
  required : List String := []
  additional_properties : Option Bool := none
  min_properties : Option Nat := none
  max_properties : Option Nat := none

/-- Base functor of `openapiv3::ArrayType`. -/
structure ArrayTypeF (σ : Type) where
  items : Option (RefOr σ) := none
  min_items : Option Nat := none
  max_items : Option Nat := none
  unique_items : Bool := false

/-- Base functor of `openapiv3::AnySchema`, restricted to the fields the
embedded code touches (`properties` and `required`). -/
structure AnySchemaF (σ : Type) where
  properties : List (String × RefOr σ) := []
  required : List String := []

/-- Base functor of `openapiv3::Type`. -/
inductive TypF (σ : Type) : Type where
  | string (t : StringType) : TypF σ
  | number (t : NumberType) : TypF σ
  | integer (t : IntegerType) : TypF σ
  | object (t : ObjectTypeF σ) : TypF σ
  | array (t : ArrayTypeF σ) : TypF σ
  | boolean : TypF σ

/-- Base functor of `openapiv3::SchemaKind` (the `OneOf` and `Not` branches
are never constructed by the embedded code and are omitted). -/
inductive SchemaKindF (σ : Type) : Type where
  | typ (t : TypF σ) : SchemaKindF σ
  | anyOf (any_of : List (RefOr σ)) : SchemaKindF σ
  | allOf (all_of : List (RefOr σ)) : SchemaKindF σ
  | any (a : AnySchemaF σ) : SchemaKindF σ

/-- The recursive v3 schema (`openapiv3::Schema`). -/
inductive Schema : Type where
  | mk (schema_data : SchemaData) (schema_kind : SchemaKindF Schema)

abbrev SchemaKind := SchemaKindF Schema
abbrev ObjectType := ObjectTypeF Schema
abbrev ArrayType := ArrayTypeF Schema
abbrev AnySchema := AnySchemaF Schema
abbrev Typ := TypF Schema

def Schema.schema_data : Schema → SchemaData
  | .mk d _ => d

def Schema.schema_kind : Schema → SchemaKind
  | .mk _ k => k

/-- Media-type entry of the v3 model (`openapiv3::MediaType`); its other
fields (`examples`, `encoding`) are never populated by the embedded code. -/
structure MediaType where
  schema : Option (RefOr Schema) := none

/-- Request payload of the v3 model (`openapiv3::RequestBody`); `content` is
an `IndexMap` keyed by media type. -/
structure RequestBody where
  description : Option String := none
  content : List (String × MediaType) := []
  required : Bool := false

/-- Modelled from the spec: the v3 parameter shape produced for passthrough
(path/query/header) parameters by the `From<v2::Parameter>` impl, which lives
outside `src/`.  Per spec section 6 a passthrough parameter keeps its shape:
name, location, required flag, description and schema. -/
structure V3Parameter where
  name : String
  location : ParameterIn
  required : Bool := false
  description : Option String := none
  schema : Option (RefOr Schema) := none

/-- Modelled from the spec: the v3 response shape (spec section 3: a response
has a description and an embedded schema node; headers are not detailed). -/
structure V3Response where
  description : String := ""
  schema : Option (RefOr Schema) := none

/-- The v3 responses object (`openapiv3::Responses`): an optional default
response plus a map keyed by numeric status code. -/
structure V3Responses where
  default : Option (RefOr V3Response) := none
  responses : List (Nat × RefOr V3Response) := []
  extensions : List (String × Json) := []

/-- The v3 operation (`openapiv3::Operation`), with the fields written by the
converter in `src/core/src/v3/operation.rs`. -/
structure V3Operation where
  tags : List String := []
  summary : Option String := none
  description : Option String := none
  external_docs : Option String := none
  operation_id : Option String := none
  parameters : List (RefOr V3Parameter) := []
  request_body : Option (RefOr RequestBody) := none
  responses : V3Responses := {}
  deprecated : Bool := false
  security : Option (List (List (String × List String))) := none
  servers : List String := []
  extensions : List (String × Json) := []

/-- Modelled from the spec: conversion of a raw `v2::Reference` into the newer
model (the `From<v2::Reference>` impl lives outside `src/`).  Per spec section
3 a node standing for a reference "is a pointer, not an inline shape": the
result is a pure reference node determined by the reference string alone. -/
def referenceToV3 (reference : String) : RefOr Schema :=
  .reference reference

/-- Deserialization `serde_json::from_value::<Option<i64>>(v).unwrap_or_default()`:
JSON null maps to `none`, a number to `some`, anything else fails and falls
back to the default `none`. -/
def fromValueOptInt : Json → Option Int
  | .null => none
  | .num n => some n
  | _ => none

/-- Deserialization `from_value::<Option<f64>>(v).unwrap_or_default()`. -/
def fromValueOptRat : Json → Option Rat
  | .null => none
  | .num n => some (n : Rat)
  | _ => none

/-- Deserialization `from_value::<Option<String>>(v).unwrap_or_default()`. -/
def fromValueOptStr : Json → Option String
  | .null => none
  | .str s => some s
  | _ => none

/-- Rust cast `v as i64` applied to a float modelled as a rational:
truncation toward zero. -/
def ratAsI64 (q : Rat) : Int :=
  q.num.tdiv (q.den : Int)

mutual

/-- Embedding of `impl From<v2::DefaultSchemaRaw> for ReferenceOr<Schema>`
(src/core/src/v3/schema.rs lines 16 to 84).  A set reference wins over
everything else; otherwise the node is converted inline, with the kind chosen
by the data type, else `any_of`, else `all_of`, else a constant, else an
empty object.  The sibling impl for `ReferenceOr<Box<Schema>>` (lines 4 to
14) only re-wraps this one through an erased `Box` and is represented by the
same function. -/
def schemaToV3 : DefaultSchemaRaw → RefOr Schema
  | .mk s =>
    match s.reference with
    | some reference => referenceToV3 reference
    | none =>
      .item (Schema.mk
        { nullable := false
          read_only := false
          write_only := false
          deprecated := false
          external_docs := none
          «example» := s.«example»
          title := s.title
          description := s.description
          discriminator := none
          default := none
          extensions := s.extensions }
        (match s.data_type with
         | some data_type =>
           v2DataTypeToV3 data_type s.format s.enum_ s.items s.properties s.required
         | none =>
           if s.any_of.isEmpty = false then
             .anyOf (s.any_of.attach.map (fun x => schemaToV3 x.1))
           else if s.all_of.isEmpty = false then
             .allOf (s.all_of.attach.map (fun x => schemaToV3 x.1))
           else
             match s.const_ with
             | some c =>
               match c with
               | .str str => .typ (.string { enumeration := [some str] })
               | _ => .typ (.object {})
             | none => .typ (.object {})))
termination_by x => sizeOf x
decreasing_by
  all_goals cases s
  all_goals first
    | (have h1 := List.sizeOf_lt_of_mem x.2
       obtain ⟨a, hx⟩ := x
       simp_all
       omega)
    | (simp_all; omega)

/-- Embedding of the helper `v2_data_type_to_v3` (src/core/src/v3/schema.rs
lines 88 to 226).  The `debug_assert!` calls on unexpected formats are
debug-build diagnostics with no effect on the returned value. -/
def v2DataTypeToV3 (data_type : DataType) (format : Option DataTypeFormat)
    (enum_ : List Json) (items : Option DefaultSchemaRaw)
    (properties : List (String × DefaultSchemaRaw)) (required : List String) : SchemaKind :=
  match data_type with
  | .integer =>
    .typ (.integer
      { format :=
          match format with
          | none => .empty
          | some .int32 => .item IntegerFormat.int32
          | some .int64 => .item IntegerFormat.int64
          | some _ => .empty
        multiple_of := none
        exclusive_minimum := false
        exclusive_maximum := false
        minimum := none
        maximum := none
        enumeration := enum_.map fromValueOptInt })
  | .number =>
    .typ (.number
      { format :=
          match format with
          | none => .empty
          | some .float => .item NumberFormat.float
          | some .double => .item NumberFormat.double
          | some _ => .empty
        multiple_of := none
        exclusive_minimum := false
        exclusive_maximum := false
        minimum := none
        maximum := none
        enumeration := enum_.map fromValueOptRat })
  | .string =>
    .typ (.string
      { format :=
          match format with
          | none => .empty
          | some .byte => .item StringFormat.byte
          | some .binary => .item StringFormat.binary
          | some .date => .item StringFormat.date
          | some .dateTime => .item StringFormat.dateTime
          | some .password => .item StringFormat.password
          | some f => .unknown f.displayStr
        pattern := none
        enumeration := enum_.map fromValueOptStr
        min_length := none
        max_length := none })
  | .boolean => .typ .boolean
  | .array =>
    .typ (.array
      { items :=
          match items with
          | some i => some (schemaToV3 i)
          | none => none
        min_items := none
        max_items := none
        unique_items := false })
  | .object =>
    .typ (.object
      { properties :=
          properties.attach.foldl
            (fun i b => indexInsert b.1.1 (schemaToV3 b.1.2) i) []
        required := required
        additional_properties := none
        min_properties := none
        max_properties := none })
  | .file =>
    .typ (.string { format := .item StringFormat.binary })
termination_by sizeOf items + sizeOf properties
decreasing_by
  all_goals first
    | (have h1 := List.sizeOf_lt_of_mem b.2
       obtain ⟨⟨k, v⟩, hx⟩ := b
       simp_all
       omega)
    | (simp_all; omega)

end

/-- Modelled from the spec: the helper `invalid_referenceor` lives in the
core crate's v3 module, outside `src/`.  Per spec section 7 a hard
construction error "yields an explicit placeholder schema carrying a
human-readable error message inline (visible in the output document)": an
inline item schema whose description holds the message. -/
def invalid_referenceor (text : String) : RefOr Schema :=
  .item (Schema.mk { description := some text } (.typ (.object {})))

mutual

/-- Conversion of the optional nested item schema (`v2.items.map(|i| i.into())`). -/
def itemsToV3Opt : Option Items → Option (RefOr Schema)
  | none => none
  | some i => some (itemsToV3 i)
termination_by x => sizeOf x
decreasing_by
  simp

/-- Embedding of `impl From<v2::Items> for ReferenceOr<Box<Schema>>`
(src/core/src/v3/schema.rs lines 228 to 376).  The Rust code computes a kind
and wraps it once at the end, using early `return invalid_referenceor(..)` for
the failure branches; the embedding inlines the final wrap into each success
branch. -/
def itemsToV3 : Items → RefOr Schema
  | .mk s =>
    match s.data_type with
    | none => invalid_referenceor "Invalid Item, should have a data type"
    | some data_type =>
      match data_type with
      | .integer =>
        let format : Option (VariantOrUnknownOrEmpty IntegerFormat) :=
          match s.format with
          | none => some .empty
          | some .int32 => some (.item IntegerFormat.int32)
          | some .int64 => some (.item IntegerFormat.int64)
          | some _ => none
        match format with
        | none =>
          invalid_referenceor
            ("Invalid data type format: " ++ (s.format.map DataTypeFormat.debugStr).getD "")
        | some format =>
          .item (Schema.mk {} (.typ (.integer
            { format := format
              multiple_of := s.multiple_of.map ratAsI64
              exclusive_minimum := s.exclusive_minimum.getD false
              exclusive_maximum := s.exclusive_maximum.getD false
              minimum := s.minimum.map ratAsI64
              maximum := s.maximum.map ratAsI64
              enumeration := s.enum_.map fromValueOptInt })))
      | .number =>
        let format : Option (VariantOrUnknownOrEmpty NumberFormat) :=
          match s.format with
          | none => some .empty
          | some .float => some (.item NumberFormat.float)
          | some .double => some (.item NumberFormat.double)
          | some _ => none
        match format with
        | none =>
          invalid_referenceor
            ("Invalid data type format: " ++ (s.format.map DataTypeFormat.debugStr).getD "")
        | some format =>
          .item (Schema.mk {} (.typ (.number
            { format := format
              multiple_of := s.multiple_of
              exclusive_minimum := s.exclusive_minimum.getD false
              exclusive_maximum := s.exclusive_maximum.getD false
              minimum := s.minimum
              maximum := s.maximum
              enumeration := s.enum_.map fromValueOptRat })))
      | .string =>
        let format : Option (VariantOrUnknownOrEmpty StringFormat) :=
          match s.format with
          | none => some .empty
          | some .byte => some (.item StringFormat.byte)
          | some .binary => some (.item StringFormat.binary)
          | some .date => some (.item StringFormat.date)
          | some .dateTime => some (.item StringFormat.dateTime)
          | some .password => some (.item StringFormat.password)
          | some _ => none
        match format with
        | none =>
          invalid_referenceor
            ("Invalid data type format: " ++ (s.format.map DataTypeFormat.debugStr).getD "")
        | some format =>
          .item (Schema.mk {} (.typ (.string
            { format := format
              pattern := s.pattern
              enumeration := s.enum_.map fromValueOptStr
              min_length := s.min_length
              max_length := s.max_length })))
      | .boolean => .item (Schema.mk {} (.typ .boolean))
      | .array =>
        .item (Schema.mk {} (.typ (.array
          { items := itemsToV3Opt s.items
            min_items := s.min_items
            max_items := s.max_items
            unique_items := s.unique_items.getD false })))
      | invalid =>
        invalid_referenceor ("Invalid Item data_type: " ++ invalid.debugStr)
termination_by x => sizeOf x
decreasing_by
  cases s
  simp_all
  omega

end

/-- Rust `str::parse::<u16>()` on a response key: an optional leading plus
sign followed by at least one ASCII decimal digit, value at most 65535; a
minus sign, any other character, an empty string or an overflow fails. -/
def parseU16 (s : String) : Option Nat :=
  let digits :=
    match s.data with
    | '+' :: rest => rest
    | cs => cs
  if digits.isEmpty then none
  else if digits.all Char.isDigit then
    let n := digits.foldl (fun acc c => acc * 10 + (c.toNat - 48)) 0
    if n < 65536 then some n else none
  else none

/-- Modelled from the spec: the request payload produced from an explicit
body-location parameter by the `From<v2::Parameter>` impl (outside `src/`).
Per spec section 4.4 a body parameter "becomes the newer document's single
request payload", keyed by media type (section 6); the model uses one JSON
media entry carrying the parameter's converted schema. -/
def requestBodyOfBodyParam (p : Parameter) : RequestBody :=
  { description := p.description
    required := p.required
    content := [("application/json", { schema := p.schema.map schemaToV3 })] }

/-- Modelled from the spec: the schema produced from a form-location
parameter by the `From<v2::Parameter>` impl (outside `src/`).  Per spec
section 3 a non-body parameter carries an embedded schema node, except that
"file uploads map to a string schema with binary format"; a form parameter
with neither yields nothing (the `Either::Right(None)` branch of the
converter). -/
def formSchemaOfParam (p : Parameter) : Option (RefOr Schema) :=
  if p.data_type = some DataType.file then
    some (.item (Schema.mk {} (.typ (.string { format := .item StringFormat.binary }))))
  else
    p.schema.map schemaToV3

/-- Modelled from the spec: the v3 parameter produced from a passthrough
(path/query/header) parameter by the `From<v2::Parameter>` impl (outside
`src/`).  Per spec section 4.4 such parameters "pass through as
reference-or-inline parameter entries unchanged in shape". -/
def v3ParameterOfParam (p : Parameter) : V3Parameter :=
  { name := p.name
    location := p.in_
    required := p.required
    description := p.description
    schema := p.schema.map schemaToV3 }

/-- Modelled from the spec: classification performed by
`impl From<v2::Parameter> for Either<Parameter, Either<RequestBody,
Option<ReferenceOr<Schema>>>>` (outside `src/`), consumed by the converter in
src/core/src/v3/operation.rs lines 14 to 19.  Per spec section 4.4: a
body-location parameter becomes a request body, a form-location parameter
contributes an optional schema, everything else passes through as a
parameter. -/
def paramIntoEither (p : Parameter) :
    Either V3Parameter (Either RequestBody (Option (RefOr Schema))) :=
  match p.in_ with
  | .body => .right (.left (requestBodyOfBodyParam p))
  | .formData => .right (.right (formSchemaOfParam p))
  | _ => .left (v3ParameterOfParam p)

/-- Modelled from the spec: conversion of one v2 response (together with its
owning operation, mirroring `OperationEitherResponse`, whose `From` impl is
outside `src/`).  Per spec section 3 a response has a description and an
embedded schema node; a reference passes through as a reference. -/
def operationEitherResponseToV3 (op : Operation) (r : Either Reference Response) :
    RefOr V3Response :=
  match r with
  | .left reference => .reference reference.reference
  | .right response =>
    let _ := op
    .item { description := response.description.getD ""
            schema := response.schema.map schemaToV3 }

/-- Accumulator of the parameter scan in
`From<v2::Operation> for openapiv3::Operation` (src/core/src/v3/operation.rs
lines 5 to 54): the collected passthrough parameters together with the two
mutable slots `request_body` and `form_data`. -/
structure ParamScanState where
  parameters : List (RefOr V3Parameter) := []
  request_body : Option RequestBody := none
  form_data : Option AnySchema := none

/-- One step of the parameter scan (the `filter_map` body, operation.rs lines
12 to 53).  A reference passes through; a classified parameter either
becomes a passthrough entry, overwrites the request-body slot, or inserts one
property into the synthesized form schema — seeding its required set from the
parameter only when the form schema is first created. -/
def processParameter (st : ParamScanState) (p : Either Reference Parameter) : ParamScanState :=
  match p with
  | .left reference =>
    { st with parameters := st.parameters ++ [.reference reference.reference] }
  | .right parameter =>
    match paramIntoEither parameter with
    | .right (.left l) => { st with request_body := some l }
    | .right (.right (some schema)) =>
      let boxed_item : RefOr Schema := schema
      match st.form_data with
      | some any =>
        let any : AnySchema :=
          { any with properties := indexInsert parameter.name boxed_item any.properties }
        { st with form_data := some any }
      | none =>
        let any : AnySchema := {}
        let any :=
          if parameter.required then { any with required := any.required ++ [parameter.name] }
          else any
        let any : AnySchema :=
          { any with properties := indexInsert parameter.name boxed_item any.properties }
        { st with form_data := some any }
    | .right (.right none) => st
    | .left parameter => { st with parameters := st.parameters ++ [.item parameter] }

/-- The whole parameter scan of an operation. -/
def scanParameters (op : Operation) : ParamScanState :=
  op.parameters.foldl processParameter {}

/-- Resolution of the request-body slot (operation.rs lines 56 to 80): an
explicit request body wins; otherwise a synthesized form schema is wrapped
once per declared media type in `consumes`, and no body is produced when
`consumes` is absent. -/
def resolveRequestBody (request_body : Option RequestBody) (form_data : Option AnySchema)
    (consumes : Option (List String)) : Option (RefOr RequestBody) :=
  match request_body with
  | some request_body => some (.item request_body)
  | none =>
    match form_data with
    | some form_data =>
      match consumes with
      | none => none
      | some consumes =>
        let content :=
          consumes.foldl
            (fun content media =>
              indexInsert media
                ({ schema := some (.item (Schema.mk {} (.any form_data))) } : MediaType)
                content)
            []
        some (.item { description := none, content := content, required := false })
    | none => none

/-- Conversion of the v2 responses map (operation.rs lines 90 to 110): keys
that parse as unsigned 16-bit codes are kept under the parsed code, all other
keys are dropped, and the default slot is left empty. -/
def convertResponses (op : Operation) : V3Responses :=
  { default := none
    responses :=
      op.responses.foldl
        (fun i kv =>
          match parseU16 kv.1 with
          | some code => indexInsertNat code (operationEitherResponseToV3 op kv.2) i
          | none => i)
        [] }

/-- Conversion of the security requirement sets (operation.rs lines 112 to
126): an empty list maps to an absent slot, otherwise each set is rebuilt by
folding its entries into an insertion-ordered map. -/
def convertSecurity (security : List (List (String × List String))) :
    Option (List (List (String × List String))) :=
  if security.isEmpty then none
  else
    some (security.map (fun s => s.foldl (fun i kv => indexInsert kv.1 kv.2 i) []))

/-- Embedding of `impl From<v2::Operation> for openapiv3::Operation`
(src/core/src/v3/operation.rs lines 3 to 131). -/
def convertOperation (v2 : Operation) : V3Operation :=
  let st := scanParameters v2
  { tags := v2.tags
    summary := v2.summary
    description := v2.description
    external_docs := none
    operation_id := v2.operation_id
    parameters := st.parameters
    request_body := resolveRequestBody st.request_body st.form_data v2.consumes
    responses := convertResponses v2
    deprecated := v2.deprecated
    security := convertSecurity v2.security
    servers := []
    extensions := [] }

/-- Annotations contributed by `extract_metadata` plus the example attribute
(src/macros/src/actix.rs lines 1581 to 1628, 786 to 806): documentation
(already trimmed at macro-expansion time), a preview gate, the collapsed
marker, a display priority and an example value (the generated assignment
always produces a JSON value when the attribute is present). -/
structure FieldAnnotations where
  docs : String := ""
  gated : Option String := none
  collapsed : Bool := false
  priority : Option Nat := none
  «example» : Option Json := none

/-- Whether `extract_metadata` emits an empty token stream (no metadata
statement at all). -/
def metadataIsEmpty (m : FieldAnnotations) : Bool :=
  m.docs == "" && m.gated.isNone && !m.collapsed && m.priority.isNone && m.«example».isNone

/-- Runtime effect of the statements generated by `extract_metadata`
(actix.rs lines 1581 to 1628) on the schema variable `s`, in generation
order: description, preview gate, collapsed, priority, example. -/
def applyMetadata (m : FieldAnnotations) (s : DefaultSchemaRaw) : DefaultSchemaRaw :=
  let s := if m.docs = "" then s else s.withDescription (some m.docs)
  let s :=
    match m.gated with
    | some g => s.insertExtension "x_fp_preview_gate" (.str g)
    | none => s
  let s := if m.collapsed then s.insertExtension "x_fp_collapsed" (.bool true) else s
  let s :=
    match m.priority with
    | some p => s.insertExtension "x_fp_priority" (.num (p : Int))
    | none => s
  match m.«example» with
  | some e => s.withExample (some e)
  | none => s

/-- Runtime effect of the code generated by `add_metadata_to_schema`
(src/macros/src/actix.rs lines 1631 to 1660): empty metadata leaves the
schema alone; a named schema is wrapped in a fresh node whose `all_of` holds
the original schema and a fresh metadata-only schema copying the data type;
an unnamed schema receives the metadata in place. -/
def add_metadata_to_schema (schema_ref : DefaultSchemaRaw) (m : FieldAnnotations) :
    DefaultSchemaRaw :=
  if metadataIsEmpty m then schema_ref
  else if schema_ref.name.isSome then
    let original_s := schema_ref
    let meta_s := applyMetadata m (.mk { data_type := schema_ref.data_type })
    .mk { all_of := [original_s, meta_s] }
  else
    applyMetadata m schema_ref

/-- Capitalization of one word: first character uppercased, rest lowercased. -/
def capitalizeWord (w : String) : String :=
  match w.data with
  | [] => ""
  | c :: cs => String.mk (c.toUpper :: cs.map Char.toLower)

/-- Appends the pending reversed word to the accumulator if it is nonempty. -/
def flushWord (cur : List Char) (acc : List String) : List String :=
  if cur.isEmpty then acc else acc ++ [String.mk cur.reverse]

/-- Word segmentation of an identifier in the style of the `heck` crate used
by the serde rename helpers: non-alphanumeric characters separate words, and
within alphanumeric runs a word starts at an uppercase letter that follows a
lowercase letter or digit, or at an uppercase letter followed by a lowercase
letter inside an uppercase run. -/
def splitWordsAux (prev : Option Char) (cur : List Char) : List Char → List String → List String
  | [], acc => flushWord cur acc
  | c :: rest, acc =>
    if !c.isAlphanum then
      splitWordsAux none [] rest (flushWord cur acc)
    else
      let afterLower := match prev with | some p => p.isLower || p.isDigit | none => false
      let afterUpper := match prev with | some p => p.isUpper | none => false
      let beforeLower := match rest with | r :: _ => r.isLower | [] => false
      if c.isUpper && (afterLower || (afterUpper && beforeLower)) then
        splitWordsAux (some c) [c] rest (flushWord cur acc)
      else
        splitWordsAux (some c) (c :: cur) rest acc

/-- Splits an identifier into its case words. -/
def splitWords (s : String) : List String :=
  splitWordsAux none [] s.data []

/-- Supported serde container renaming rules (actix.rs lines 2155 to 2173). -/
inductive SerdeRename : Type where
  | lower | upper | pascal | camel | snake | screamingSnake | kebab | screamingKebab
  deriving DecidableEq

/-- The `SerdeRename::rename` conversion (actix.rs lines 2217 to 2228),
delegating to heck-style case conversions. -/
def SerdeRename.rename (r : SerdeRename) (name : String) : String :=
  match r with
  | .lower => name.toLower
  | .upper => name.toUpper
  | .pascal => String.join ((splitWords name).map capitalizeWord)
  | .camel =>
    match splitWords name with
    | [] => ""
    | w :: ws => w.toLower ++ String.join (ws.map capitalizeWord)
  | .snake => String.intercalate "_" ((splitWords name).map String.toLower)
  | .screamingSnake => String.intercalate "_" ((splitWords name).map String.toUpper)
  | .kebab => String.intercalate "-" ((splitWords name).map String.toLower)
  | .screamingKebab => String.intercalate "-" ((splitWords name).map String.toUpper)

/-- Enum tagging strategies (actix.rs lines 2341 to 2350). -/
inductive SerdeEnumTagType : Type where
  | external : SerdeEnumTagType
  | internal (tag : String) : SerdeEnumTagType
  | adjacent (tag content : String) : SerdeEnumTagType
  | untagged : SerdeEnumTagType
  deriving DecidableEq

/-- Field-name computation of `handle_field_struct` and `handle_enum`: an
explicit per-item `#[serde(rename = ..)]` wins, else the container-level
`rename_all` rule applies, else the declared identifier (with any raw `r#`
prefix already stripped at expansion time) is used. -/
def renameOf (renameAll : Option SerdeRename) (serdeRename : Option String)
    (ident : String) : String :=
  match serdeRename with
  | some renamed => renamed
  | none =>
    match renameAll with
    | some prop => prop.rename ident
    | none => ident

/-- Description of one named struct field as seen by `handle_field_struct`:
its identifier, the serde/openapi attributes read by the macro, and the index
of the field's type inside the ambient type environment. -/
structure FieldDesc where
  ident : String
  serdeRename : Option String := none
  skip : Bool := false
  flatten : Bool := false
  inline : Bool := false
  overrideRequired : Bool := false
  overrideOptional : Bool := false
  meta : FieldAnnotations := {}
  tyIdx : Nat

/-- Description of one unnamed (tuple) field as seen by
`handle_unnamed_field_struct`. -/
structure UnnamedFieldDesc where
  skip : Bool := false
  flatten : Bool := false
  inline : Bool := false
  overrideRequired : Bool := false
  overrideOptional : Bool := false
  docs : String := ""
  tyIdx : Nat

/-- Field shapes of one enum variant. -/
inductive VariantFields : Type where
  | unit : VariantFields
  | named (fs : List FieldDesc) : VariantFields
  | unnamed (fs : List UnnamedFieldDesc) : VariantFields

/-- Description of one enum variant as seen by `handle_enum`. -/
structure VariantDesc where
  ident : String
  serdeRename : Option String := none
  skip : Bool := false
  meta : FieldAnnotations := {}
  fields : VariantFields := .unit

/-- Body shapes handled by `emit_v2_definition` (unions are rejected with a
compile error and do not reach schema generation). -/
inductive TypeBody : Type where
  | structNamed (fields : List FieldDesc) : TypeBody
  | structUnnamed (fields : List UnnamedFieldDesc) : TypeBody
  | structUnit : TypeBody
  | enumBody (variants : List VariantDesc) : TypeBody

/-- Description of one type deriving `Apiv2Schema`, as seen by
`emit_v2_definition`: identifier, the openapi/serde container attributes, and
the rendered `name()` values of its generic type arguments (each argument
exposes its optional canonical name as a pure capability, spec section 6). -/
structure TypeDef where
  ident : String
  rename : Option String := none
  isInline : Bool := false
  typeParamNames : List (Option String) := []
  renameAll : Option SerdeRename := none
  tagType : SerdeEnumTagType := .external
  required : Bool := true
  meta : FieldAnnotations := {}
  body : TypeBody := .structUnit

/-- The `schema_name` computation of `emit_v2_definition` (actix.rs lines 980
to 993): the base name alone for a non-generic type, otherwise the base name
followed by the rendered names of the type arguments (arguments without a
name are filtered out) joined by a comma and a space, inside textual angle
brackets. -/
def schemaName (base_name : String) (typeParamNames : List (Option String)) : String :=
  if typeParamNames.isEmpty then base_name
  else base_name ++ "<" ++ String.intercalate ", " (typeParamNames.filterMap id) ++ ">"

/-- The base name: an explicit `#[openapi(rename = ..)]` or the declared
identifier (actix.rs line 980). -/
def baseNameOf (t : TypeDef) : String :=
  t.rename.getD t.ident

/-- The canonical schema name of a type. -/
def canonicalName (t : TypeDef) : String :=
  schemaName (baseNameOf t) t.typeParamNames

/-- The `open_api_name` computation (actix.rs lines 996 to 1006, default
feature set): a type marked inline gets no name, everything else gets its
canonical name. -/
def openApiName (t : TypeDef) : Option String :=
  if t.isInline then none else some (canonicalName t)

/-- Fallback descriptor for an out-of-range type index; the macro always has
a concrete field type, so this is never reachable from well-formed input (an
anonymous inline empty struct keeps every theorem honest on junk input). -/
def anonEmptyType : TypeDef :=
  { ident := "", isInline := true, body := .structUnit }

/-- Type lookup in the environment. -/
def resolveTy (env : List TypeDef) (idx : Nat) : TypeDef :=
  (env.get? idx).getD anonEmptyType

/-- Modelled from the spec: `Apiv2Schema::schema_with_ref` is defined in the
core crate, outside `src/`.  Per spec section 4.3 the resolver returns
"either the inline Schema Node (name cleared) or a reference node pointing at
the type's canonical name"; the reference node carries the canonical name and
the reference string to the definitions table. -/
def schemaWithRef (build : TypeDef → DefaultSchemaRaw) (t : TypeDef) : DefaultSchemaRaw :=
  match openApiName t with
  | none => build t
  | some n => .mk { name := some n, reference := some ("#/definitions/" ++ n) }

/-- The `schema_ref` choice shared by `handle_field_struct` and
`handle_unnamed_field_struct` (actix.rs lines 1856 to 1862, 1683 to 1688,
1709 to 1714): a field marked inline uses the raw schema of its type, any
other field uses the schema-with-reference. -/
def fieldSchemaRef (build : TypeDef → DefaultSchemaRaw) (env : List TypeDef)
    (inline : Bool) (tyIdx : Nat) : DefaultSchemaRaw :=
  let ty := resolveTy env tyIdx
  if inline then build ty else schemaWithRef build ty

/-- Runtime effect of `flattened_schema` (actix.rs lines 1743 to 1754): the
accumulated schema and the flattened field's schema are joined under a fresh
`all_of`. -/
def flattenedSchema (schema schema_ref : DefaultSchemaRaw) : DefaultSchemaRaw :=
  .mk { all_of := [schema, schema_ref] }

/-- Runtime effect of the per-field block of `handle_field_struct` (actix.rs
lines 1834 to 1882) on the `schema` variable. -/
def processNamedField (build : TypeDef → DefaultSchemaRaw) (env : List TypeDef)
    (renameAll : Option SerdeRename) (schema : DefaultSchemaRaw) (f : FieldDesc) :
    DefaultSchemaRaw :=
  if f.skip then schema
  else
    let field_name := renameOf renameAll f.serdeRename f.ident
    let ty := resolveTy env f.tyIdx
    let schema_ref := fieldSchemaRef build env f.inline f.tyIdx
    if f.flatten then flattenedSchema schema schema_ref
    else
      let s := add_metadata_to_schema schema_ref f.meta
      let schema := schema.insertProperty field_name s
      if (ty.required || f.overrideRequired) && !f.overrideOptional then
        schema.insertRequired field_name
      else schema

/-- Runtime effect of `handle_field_struct` (actix.rs lines 1820 to 1883):
the container documentation is written first, then every field is processed
in declaration order. -/
def handleFieldStruct (build : TypeDef → DefaultSchemaRaw) (env : List TypeDef)
    (renameAll : Option SerdeRename) (docs : String) (fields : List FieldDesc)
    (schema : DefaultSchemaRaw) : DefaultSchemaRaw :=
  let schema := if docs = "" then schema else schema.withDescription (some docs)
  fields.foldl (processNamedField build env renameAll) schema

/-- Runtime effect of `handle_unnamed_field_struct` (actix.rs lines 1664 to
1739): a one-element tuple is transparent (the schema variable is replaced by
the single field's schema overlaid with the container metadata), a
multi-element tuple contributes one property per non-skipped position keyed
by its numeric index. -/
def handleUnnamedFieldStruct (build : TypeDef → DefaultSchemaRaw) (env : List TypeDef)
    (meta : FieldAnnotations) (fields : List UnnamedFieldDesc) (schema : DefaultSchemaRaw) :
    DefaultSchemaRaw :=
  match fields with
  | [f] =>
    if f.skip then applyMetadata meta (.mk {})
    else
      let schema_ref := fieldSchemaRef build env f.inline f.tyIdx
      add_metadata_to_schema schema_ref meta
  | _ =>
    fields.enum.foldl
      (fun schema x =>
        let inner_field_id := x.1
        let f := x.2
        if f.skip then schema
        else
          let ty := resolveTy env f.tyIdx
          let schema_ref := fieldSchemaRef build env f.inline f.tyIdx
          if f.flatten then flattenedSchema schema schema_ref
          else
            let s :=
              if f.docs = "" then schema_ref else schema_ref.withDescription (some f.docs)
            let schema := schema.insertProperty (toString inner_field_id) s
            if (ty.required || f.overrideRequired) && !f.overrideOptional then
              schema.insertRequired (toString inner_field_id)
            else schema)
      schema

/-- Whether a variant is a unit variant. -/
def isUnitVariant (v : VariantDesc) : Bool :=
  match v.fields with
  | .unit => true
  | _ => false

/-- The per-variant wrapping chosen by the tagging strategy (actix.rs lines
2000 to 2121).  The two branches of the internal strategy generate identical
statements (they differ only in comments), so they are represented once. -/
def wrapVariant (tagType : SerdeEnumTagType) (enum_variant_name name : String)
    (docsOpt : Option String) (inner : DefaultSchemaRaw) (inner_gen_empty : Bool)
    (schema : DefaultSchemaRaw) : DefaultSchemaRaw :=
  match tagType with
  | .external =>
    let w : DefaultSchemaRaw := .mk { data_type := some .object }
    let w := w.insertProperty name inner
    let w := w.insertRequired name
    schema.pushAnyOf w
  | .internal tag =>
    let s := (inner.withReference (some ("#/definitions/" ++ enum_variant_name))).withName
      (some enum_variant_name)
    let tag_schema : DefaultSchemaRaw := .mk { const_ := some (.str name) }
    let tag_schema := tag_schema.insertExtension "x_fp_priority" (.num 0)
    let s := s.insertProperty tag tag_schema
    let s := s.insertRequired tag
    schema.pushAnyOf s
  | .adjacent tag content =>
    if inner_gen_empty then
      let w : DefaultSchemaRaw := .mk { data_type := some .object }
      let w := (w.withReference (some ("#/definitions/" ++ enum_variant_name))).withName
        (some enum_variant_name)
      let w := w.insertProperty tag (.mk { const_ := some (.str name), description := docsOpt })
      let w := w.insertRequired tag
      schema.pushAnyOf w
    else
      let w : DefaultSchemaRaw := .mk { data_type := some .object }
      let w := (w.withReference (some ("#/definitions/" ++ enum_variant_name))).withName
        (some enum_variant_name)
      let w := w.insertProperty tag (.mk { const_ := some (.str name), description := docsOpt })
      let w := w.insertProperty content inner
      let w := w.insertRequired tag
      let w := w.insertRequired content
      schema.pushAnyOf w
  | .untagged => schema.pushAnyOf inner

/-- Runtime effect of the per-variant body of `handle_enum` (actix.rs lines
1921 to 2123): in an all-unit external/untagged enum every variant pushes a
string constant into `enum_`; otherwise a unit variant under
external/untagged pushes a bare constant schema into `any_of` (skipping the
tag-strategy wrap entirely), and every other variant builds its inner schema
and wraps it according to the strategy. -/
def handleVariant (build : TypeDef → DefaultSchemaRaw) (env : List TypeDef) (t : TypeDef)
    (enum_name : String) (simple_constants only_simple_constants : Bool)
    (schema : DefaultSchemaRaw) (v : VariantDesc) : DefaultSchemaRaw :=
  let original_name := v.ident
  let name := renameOf t.renameAll v.serdeRename original_name
  let enum_variant_name := enum_name ++ original_name
  if only_simple_constants then schema.pushEnum (.str name)
  else
    let docsOpt : Option String := if v.meta.docs = "" then none else some v.meta.docs
    match v.fields with
    | .unit =>
      if simple_constants then
        schema.pushAnyOf (.mk { const_ := some (.str name), description := docsOpt })
      else
        let inner : DefaultSchemaRaw := .mk { data_type := some .object, description := docsOpt }
        wrapVariant t.tagType enum_variant_name name docsOpt inner true schema
    | .named fs =>
      let inner0 := applyMetadata v.meta (.mk { data_type := some .object, description := docsOpt })
      let inner := handleFieldStruct build env t.renameAll "" fs inner0
      wrapVariant t.tagType enum_variant_name name docsOpt inner false schema
    | .unnamed fs =>
      let inner := handleUnnamedFieldStruct build env v.meta fs (.mk { data_type := some .object })
      wrapVariant t.tagType enum_variant_name name docsOpt inner false schema

/-- Runtime effect of `handle_enum` (actix.rs lines 1886 to 2124). -/
def handleEnum (build : TypeDef → DefaultSchemaRaw) (env : List TypeDef) (t : TypeDef)
    (variants0 : List VariantDesc) (schema : DefaultSchemaRaw) : DefaultSchemaRaw :=
  let simple_constants :=
    t.tagType == SerdeEnumTagType.external || t.tagType == SerdeEnumTagType.untagged
  let variants := variants0.filter (fun v => !v.skip)
  let only_simple_constants := simple_constants && variants.all isUnitVariant
  let schema := if only_simple_constants then schema.withDataType (some .string) else schema
  let schema := if t.meta.docs = "" then schema else schema.withDescription (some t.meta.docs)
  let enum_name := schema.name.getD ""
  variants.foldl (handleVariant build env t enum_name simple_constants only_simple_constants)
    schema

/-- Runtime effect of the `props_gen` statements of `emit_v2_definition`
(actix.rs lines 950 to 978): structs set the object data type and then
process their fields; enums delegate to `handle_enum`. -/
def propsGen (build : TypeDef → DefaultSchemaRaw) (env : List TypeDef) (t : TypeDef)
    (schema : DefaultSchemaRaw) : DefaultSchemaRaw :=
  match t.body with
  | .structNamed fs =>
    handleFieldStruct build env t.renameAll t.meta.docs fs (schema.withDataType (some .object))
  | .structUnnamed fs =>
    handleUnnamedFieldStruct build env t.meta fs (schema.withDataType (some .object))
  | .structUnit => schema.withDataType (some .object)
  | .enumBody vs => handleEnum build env t vs schema

/-- Runtime semantics of the generated `raw_schema()` function (actix.rs
lines 1008 to 1014 and 1057 to 1071): a fresh schema carrying the open-api
name and the example, transformed by the `props_gen` statements, with the
name restored afterwards (`props_gen` is never empty for the modelled
shapes, and a transparent one-element tuple may have replaced the whole
schema).  Nesting is bounded by a fuel argument; Rust type recursion would
not terminate at runtime either, so every claim holds for every fuel. -/
def rawSchema (env : List TypeDef) : Nat → TypeDef → DefaultSchemaRaw
  | 0, _ => .mk {}
  | fuel+1, t =>
    let build := rawSchema env fuel
    let schema : DefaultSchemaRaw := .mk { name := openApiName t, «example» := t.meta.«example» }
    let schema := propsGen build env t schema
    schema.withName (openApiName t)

/-- All reference strings occurring anywhere inside a v2 schema node, at any
nesting depth. -/
def refsIn : DefaultSchemaRaw → List String
  | .mk s =>
    s.reference.toList
    ++ (s.properties.attach.map (fun x => refsIn x.1.2)).flatten
    ++ (match h : s.items with
        | some i => refsIn i
        | none => [])
    ++ (s.any_of.attach.map (fun x => refsIn x.1)).flatten
    ++ (s.all_of.attach.map (fun x => refsIn x.1)).flatten
termination_by x => sizeOf x
decreasing_by
  all_goals cases s
  all_goals first
    | (have h1 := List.sizeOf_lt_of_mem x.2
       obtain ⟨⟨a, b⟩, hx⟩ := x
       simp_all
       omega)
    | (have h1 := List.sizeOf_lt_of_mem x.2
       obtain ⟨a, hx⟩ := x
       simp_all
       omega)
    | (subst h
       simp_all
       omega)
    | (simp_all
       omega)

/-- The body-location parameters of a parameter list, in order (the ones the
classifier sends to the request-body slot). -/
def bodyParams (ps : List (Either Reference Parameter)) : List Parameter :=
  ps.filterMap (fun p =>
    match p with
    | .right q => if q.in_ == ParameterIn.body then some q else none
    | .left _ => none)

/-- The form-location parameters of a parameter list, in order. -/
def formLocationParams (ps : List (Either Reference Parameter)) : List Parameter :=
  ps.filterMap (fun p =>
    match p with
    | .right q => if q.in_ == ParameterIn.formData then some q else none
    | .left _ => none)

/-- The form contributions of a parameter list: name, required flag and
converted schema of every form-location parameter that yields a schema (the
`Either::Right(Either::Right(Some(..)))` classification outcomes, in order). -/
def formEntries (ps : List (Either Reference Parameter)) :
    List (String × Bool × RefOr Schema) :=
  ps.filterMap (fun p =>
    match p with
    | .right q =>
      match paramIntoEither q with
      | .right (.right (some schema)) => some (q.name, q.required, schema)
      | _ => none
    | .left _ => none)

/-- The form-schema accumulation in isolation (the `form_data` slot of the
parameter scan, fed with the form contributions only). -/
def formFold : Option AnySchema → List (String × Bool × RefOr Schema) → Option AnySchema
  | fd, [] => fd
  | fd, e :: rest =>
    match fd with
    | some any =>
      formFold (some { any with properties := indexInsert e.1 e.2.2 any.properties }) rest
    | none =>
      let any : AnySchema := {}
      let any := if e.2.1 then { any with required := any.required ++ [e.1] } else any
      formFold (some { any with properties := indexInsert e.1 e.2.2 any.properties }) rest

/-- Inputs on which the v2 item conversion takes one of its failure branches:
no data type at all, a kind unsupported in item position (object, file), or a
format invalid for the kind (src/core/src/v3/schema.rs lines 231 to 233, 250
to 255, 286 to 291, 337 to 342, 365 to 367). -/
def invalidItemInput (it : Items) : Bool :=
  match it.un.data_type with
  | none => true
  | some .object => true
  | some .file => true
  | some .integer =>
    match it.un.format with
    | none | some .int32 | some .int64 => false
    | some _ => true
  | some .number =>
    match it.un.format with
    | none | some .float | some .double => false
    | some _ => true
  | some .string =>
    match it.un.format with
    | none | some .byte | some .binary | some .date | some .dateTime | some .password => false
    | some _ => true
  | some .boolean => false
  | some .array => false

/-- The element pushed into `any_of` for one variant of an enum that is not
an all-unit string enum (the value `handleVariant` appends; it never depends
on the accumulated schema). -/
def variantAnyOfEntry (build : TypeDef → DefaultSchemaRaw) (env : List TypeDef) (t : TypeDef)
    (enum_name : String) (simple_constants : Bool) (v : VariantDesc) : DefaultSchemaRaw :=
  let original_name := v.ident
  let name := renameOf t.renameAll v.serdeRename original_name
  let enum_variant_name := enum_name ++ original_name
  let docsOpt : Option String := if v.meta.docs = "" then none else some v.meta.docs
  match v.fields with
  | .unit =>
    if simple_constants then .mk { const_ := some (.str name), description := docsOpt }
    else
      let inner : DefaultSchemaRaw := .mk { data_type := some .object, description := docsOpt }
      ((wrapVariant t.tagType enum_variant_name name docsOpt inner true (.mk {})).any_of).headI
  | .named fs =>
    let inner0 := applyMetadata v.meta (.mk { data_type := some .object, description := docsOpt })
    let inner := handleFieldStruct build env t.renameAll "" fs inner0
    ((wrapVariant t.tagType enum_variant_name name docsOpt inner false (.mk {})).any_of).headI
  | .unnamed fs =>
    let inner := handleUnnamedFieldStruct build env v.meta fs (.mk { data_type := some .object })
    ((wrapVariant t.tagType enum_variant_name name docsOpt inner false (.mk {})).any_of).headI

/-- Whether a tagging strategy wraps variants in synthesized named
definitions (internal and adjacent tagging do). -/
def isTaggedWrap : SerdeEnumTagType → Bool
  | .internal _ => true
  | .adjacent _ _ => true
  | _ => false

/-- The canonical names under which types of the environment are registered
in the definitions table (inline types contribute nothing). -/
def definedRefNames (env : List TypeDef) : List String :=
  env.filterMap openApiName

/-- The synthesized per-variant definition names a type contributes
(`<enum name><variant name>` for internally or adjacently tagged enums). -/
def synthVariantNames (t : TypeDef) : List String :=
  match t.body with
  | .enumBody vs =>
    if isTaggedWrap t.tagType then
      (vs.filter (fun v => !v.skip)).map (fun v => (openApiName t).getD "" ++ v.ident)
    else []
  | _ => []

/-- All synthesized per-variant definition names of an environment. -/
def synthRefNames (env : List TypeDef) : List String :=
  (env.map synthVariantNames).flatten

/-- A reference string is accounted for by the environment when it points at
the canonical name of a non-inline type or at a synthesized variant name. -/
def AllowedBase (env : List TypeDef) (r : String) : Prop :=
  ∃ n, (n ∈ definedRefNames env ∨ n ∈ synthRefNames env) ∧ r = "#/definitions/" ++ n

/-- Example operation with one explicit body parameter and one form
parameter. -/
def c1BodyEx : Parameter :=
  { name := "body", in_ := .body, required := true
    schema := some (.mk { reference := some "#/definitions/Pet" }) }

/-- Example operation for the body-precedence claim. -/
def c1OpEx : Operation :=
  { parameters :=
      [.right { name := "f1", in_ := .formData
                schema := some (.mk { data_type := some .string }) },
       .right c1BodyEx,
       .right { name := "f2", in_ := .formData
                schema := some (.mk { data_type := some .string }) }]
    consumes := some ["multipart/form-data"] }

/-- Counterexample operation: three form parameters, only the second one
required. -/
def c2OpCex : Operation :=
  { parameters :=
      [.right { name := "a", in_ := .formData
                schema := some (.mk { data_type := some .string }) },
       .right { name := "b", in_ := .formData, required := true
                schema := some (.mk { data_type := some .string }) },
       .right { name := "c", in_ := .formData
                schema := some (.mk { data_type := some .string }) }]
    consumes := some ["application/x-www-form-urlencoded"] }

/-- Witness operation for the amended form claim: three form parameters, the
first one required. -/
def c2OpEx : Operation :=
  { parameters :=
      [.right { name := "a", in_ := .formData, required := true
                schema := some (.mk { data_type := some .string }) },
       .right { name := "b", in_ := .formData
                schema := some (.mk { data_type := some .string }) },
       .right { name := "c", in_ := .formData
                schema := some (.mk { data_type := some .string }) }]
    consumes := some ["application/x-www-form-urlencoded"] }

/-- Witness operation for the responses claim. -/
def c3OpEx : Operation :=
  { responses :=
      [("200", .right { description := some "OK" }),
       ("404", .right { description := some "not found" }),
       ("default", .right { description := some "fallback" })] }

/-- Witness operation for the consumes-wrapping claim. -/
def c6OpEx : Operation :=
  { parameters :=
      [.right { name := "a", in_ := .formData
                schema := some (.mk { data_type := some .string }) },
       .right { name := "b", in_ := .formData, required := true
                schema := some (.mk { data_type := some .integer }) }]
    consumes := some ["application/x-www-form-urlencoded", "multipart/form-data"] }

/-- Environment of the mixed-enum counterexample: a one-field payload struct
and its field type. -/
def c5Env : List TypeDef :=
  [{ ident := "Payload", body := .structNamed [{ ident := "x", tyIdx := 1 }] },
   { ident := "Inner", body := .structUnit }]

/-- Externally tagged union with one unit variant and one data-carrying
variant. -/
def c5Union : TypeDef :=
  { ident := "U"
    tagType := .external
    body := .enumBody
      [{ ident := "A", fields := .unit },
       { ident := "B", fields := .named [{ ident := "x", tyIdx := 1 }] }] }

/-- Environment of the inline-reference claim witness: an inline struct, a
named struct using it as an inline field, and a plain named field type. -/
def c7Env : List TypeDef :=
  [{ ident := "Secret", isInline := true
     body := .structNamed [{ ident := "v", tyIdx := 2 }] },
   { ident := "Outer"
     body := .structNamed
       [{ ident := "s", inline := true, tyIdx := 0 },
        { ident := "p", tyIdx := 2 }] },
   { ident := "Plain", body := .structUnit }]

/-- Witness descriptor for the naming claim: a renamed generic type. -/
def c8TypeEx : TypeDef :=
  { ident := "GenericResponse"
    rename := some "Response"
    typeParamNames := [some "Pet", some "Order"] }

/-- Witness item: an item schema without a data type. -/
def c9ItemEx : Items :=
  .mk { format := some .int32, minimum := some 3 }

/-- Witness schema node: a reference that also carries (to-be-discarded)
inline attributes. -/
def c10SchemaEx : DefaultSchemaRaw :=
  .mk { reference := some "#/definitions/Pet"
        description := some "ignored"
        data_type := some .object
        required := ["id"] }

/-- Witness reference schema for the metadata-overlay claim. -/
def c4RefEx : DefaultSchemaRaw :=
  .mk { name := some "Pet"
        reference := some "#/definitions/Pet"
        data_type := some .object }

/-- Witness metadata carrying a description. -/
def c4MetaEx : FieldAnnotations :=
  { docs := "A pet." }

@[simp]
theorem DefaultSchemaRaw.un_mk (f : SchemaRawF DefaultSchemaRaw) :
    (DefaultSchemaRaw.mk f).un = f := rfl

@[simp]
theorem DefaultSchemaRaw.name_un (s : DefaultSchemaRaw) : s.name = s.un.name := rfl

@[simp]
theorem DefaultSchemaRaw.reference_un (s : DefaultSchemaRaw) : s.reference = s.un.reference := rfl

@[simp]
theorem DefaultSchemaRaw.data_type_un (s : DefaultSchemaRaw) : s.data_type = s.un.data_type := rfl

@[simp]
theorem DefaultSchemaRaw.description_un (s : DefaultSchemaRaw) :
    s.description = s.un.description := rfl

@[simp]
theorem DefaultSchemaRaw.properties_un (s : DefaultSchemaRaw) :
    s.properties = s.un.properties := rfl

@[simp]
theorem DefaultSchemaRaw.required_un (s : DefaultSchemaRaw) : s.required = s.un.required := rfl

@[simp]
theorem DefaultSchemaRaw.items_un (s : DefaultSchemaRaw) : s.items = s.un.items := rfl

@[simp]
theorem DefaultSchemaRaw.enum_un (s : DefaultSchemaRaw) : s.enum_ = s.un.enum_ := rfl

@[simp]
theorem DefaultSchemaRaw.const_un (s : DefaultSchemaRaw) : s.const_ = s.un.const_ := rfl

@[simp]
theorem DefaultSchemaRaw.any_of_un (s : DefaultSchemaRaw) : s.any_of = s.un.any_of := rfl

@[simp]
theorem DefaultSchemaRaw.all_of_un (s : DefaultSchemaRaw) : s.all_of = s.un.all_of := rfl

@[simp]
theorem DefaultSchemaRaw.extensions_un (s : DefaultSchemaRaw) :
    s.extensions = s.un.extensions := rfl

@[simp]
theorem DefaultSchemaRaw.un_withName (s : DefaultSchemaRaw) (v : Option String) :
    (s.withName v).un = { s.un with name := v } := rfl

@[simp]
theorem DefaultSchemaRaw.un_withReference (s : DefaultSchemaRaw) (v : Option String) :
    (s.withReference v).un = { s.un with reference := v } := rfl

@[simp]
theorem DefaultSchemaRaw.un_withDataType (s : DefaultSchemaRaw) (v : Option DataType) :
    (s.withDataType v).un = { s.un with data_type := v } := rfl

@[simp]
theorem DefaultSchemaRaw.un_withDescription (s : DefaultSchemaRaw) (v : Option String) :
    (s.withDescription v).un = { s.un with description := v } := rfl

@[simp]
theorem DefaultSchemaRaw.un_withExample (s : DefaultSchemaRaw) (v : Option Json) :
    (s.withExample v).un = { s.un with «example» := v } := rfl

@[simp]
theorem DefaultSchemaRaw.un_pushEnum (s : DefaultSchemaRaw) (v : Json) :
    (s.pushEnum v).un = { s.un with enum_ := s.un.enum_ ++ [v] } := rfl

@[simp]
theorem DefaultSchemaRaw.un_pushAnyOf (s : DefaultSchemaRaw) (v : DefaultSchemaRaw) :
    (s.pushAnyOf v).un = { s.un with any_of := s.un.any_of ++ [v] } := rfl

@[simp]
theorem DefaultSchemaRaw.un_pushAllOf (s : DefaultSchemaRaw) (v : DefaultSchemaRaw) :
    (s.pushAllOf v).un = { s.un with all_of := s.un.all_of ++ [v] } := rfl

@[simp]
theorem DefaultSchemaRaw.un_insertProperty (s : DefaultSchemaRaw) (k : String)
    (v : DefaultSchemaRaw) :
    (s.insertProperty k v).un = { s.un with properties := btreeInsert k v s.un.properties } := rfl

@[simp]
theorem DefaultSchemaRaw.un_insertRequired (s : DefaultSchemaRaw) (k : String) :
    (s.insertRequired k).un = { s.un with required := btreeSetInsert k s.un.required } := rfl

@[simp]
theorem DefaultSchemaRaw.un_insertExtension (s : DefaultSchemaRaw) (k : String) (v : Json) :
    (s.insertExtension k v).un = { s.un with extensions := btreeInsert k v s.un.extensions } := rfl

theorem applyMetadata_un (m : FieldAnnotations) (s : DefaultSchemaRaw) :
    (applyMetadata m s).un.name = s.un.name
    ∧ (applyMetadata m s).un.reference = s.un.reference
    ∧ (applyMetadata m s).un.data_type = s.un.data_type
    ∧ (applyMetadata m s).un.properties = s.un.properties
    ∧ (applyMetadata m s).un.required = s.un.required
    ∧ (applyMetadata m s).un.items = s.un.items
    ∧ (applyMetadata m s).un.enum_ = s.un.enum_
    ∧ (applyMetadata m s).un.const_ = s.un.const_
    ∧ (applyMetadata m s).un.any_of = s.un.any_of
    ∧ (applyMetadata m s).un.all_of = s.un.all_of := by
  unfold applyMetadata
  repeat' split
  all_goals simp

theorem mem_btreeInsert {α : Type} {kv : String × α} {k : String} {v : α}
    {l : List (String × α)} (h : kv ∈ btreeInsert k v l) : kv = (k, v) ∨ kv ∈ l := by
  induction l with
  | nil => simpa [btreeInsert] using h
  | cons hd tl ih =>
    obtain ⟨k0, v0⟩ := hd
    simp only [btreeInsert] at h
    simp only [List.mem_cons]
    split at h
    · simp only [List.mem_cons] at h
      tauto
    · split at h
      · simp only [List.mem_cons] at h
        tauto
      · simp only [List.mem_cons] at h
        rcases h with h | h
        · tauto
        · rcases ih h with h | h <;> tauto

theorem mem_btreeSetInsert {a k : String} {l : List String}
    (h : a ∈ btreeSetInsert k l) : a = k ∨ a ∈ l := by
  induction l with
  | nil => simpa [btreeSetInsert] using h
  | cons hd tl ih =>
    simp only [btreeSetInsert] at h
    simp only [List.mem_cons]
    split at h
    · simp only [List.mem_cons] at h
      tauto
    · split at h
      · simp only [List.mem_cons] at h
        tauto
      · simp only [List.mem_cons] at h
        rcases h with h | h
        · tauto
        · rcases ih h with h | h <;> tauto

theorem indexInsert_append {α : Type} (k : String) (v : α) (l : List (String × α))
    (h : k ∉ l.map Prod.fst) : indexInsert k v l = l ++ [(k, v)] := by
  induction l with
  | nil => rfl
  | cons hd tl ih =>
    obtain ⟨k0, v0⟩ := hd
    simp only [List.map_cons, List.mem_cons] at h
    push_neg at h
    simp only [indexInsert]
    rw [if_neg (fun e => h.1 e.symm)]
    simp [ih h.2]

theorem indexInsertNat_append {α : Type} (k : Nat) (v : α) (l : List (Nat × α))
    (h : k ∉ l.map Prod.fst) : indexInsertNat k v l = l ++ [(k, v)] := by
  induction l with
  | nil => rfl
  | cons hd tl ih =>
    obtain ⟨k0, v0⟩ := hd
    simp only [List.map_cons, List.mem_cons] at h
    push_neg at h
    simp only [indexInsertNat]
    rw [if_neg (fun e => h.1 e.symm)]
    simp [ih h.2]

theorem consumesFold_spec (v : MediaType) (ms : List String) :
    ∀ acc : List (String × MediaType), ms.Nodup → (∀ m ∈ ms, m ∉ acc.map Prod.fst) →
    ms.foldl (fun content media => indexInsert media v content) acc
      = acc ++ ms.map (fun m => (m, v)) := by
  induction ms with
  | nil => intro acc _ _; simp
  | cons m ms ih =>
    intro acc hnd hfresh
    simp only [List.foldl_cons]
    rw [indexInsert_append m v acc (hfresh m (by simp))]
    rw [ih (acc ++ [(m, v)]) (by simpa using hnd.of_cons)]
    · simp
    · intro m2 hm2
      simp only [List.map_append, List.mem_append]
      push_neg
      refine ⟨hfresh m2 (by simp [hm2]), ?_⟩
      simp only [List.map_cons, List.map_nil, List.mem_singleton]
      intro hcontr
      exact (List.nodup_cons.mp hnd).1 (hcontr ▸ hm2)

theorem respFold_spec (op : Operation) (rs : List (String × Either Reference Response)) :
    ∀ acc : List (Nat × RefOr V3Response),
    (rs.filterMap (fun kv => parseU16 kv.1)).Nodup →
    (∀ c ∈ rs.filterMap (fun kv => parseU16 kv.1), c ∉ acc.map Prod.fst) →
    rs.foldl
      (fun i kv =>
        match parseU16 kv.1 with
        | some code => indexInsertNat code (operationEitherResponseToV3 op kv.2) i
        | none => i) acc
      = acc ++ rs.filterMap
          (fun kv => (parseU16 kv.1).map
            (fun code => (code, operationEitherResponseToV3 op kv.2))) := by
  induction rs with
  | nil => intro acc _ _; simp
  | cons kv rs ih =>
    intro acc hnd hfresh
    simp only [List.foldl_cons]
    rcases hp : parseU16 kv.1 with _ | code
    · simp only [hp]
      rw [ih acc (by simpa [List.filterMap_cons, hp] using hnd)
            (by intro c hc; exact hfresh c (by simp [List.filterMap_cons, hp, hc]))]
      simp [List.filterMap_cons, hp]
    · simp only [hp]
      have hc0 : code ∈ (kv :: rs).filterMap (fun kv => parseU16 kv.1) := by
        simp [List.filterMap_cons, hp]
      rw [indexInsertNat_append code _ acc (hfresh code hc0)]
      have hnd2 : (rs.filterMap (fun kv => parseU16 kv.1)).Nodup := by
        have h2 := hnd
        simp only [List.filterMap_cons, hp] at h2
        exact h2.of_cons
      have hnotin : code ∉ rs.filterMap (fun kv => parseU16 kv.1) := by
        have := hnd
        simp only [List.filterMap_cons, hp] at this
        exact (List.nodup_cons.mp this).1
      rw [ih (acc ++ [(code, operationEitherResponseToV3 op kv.2)]) hnd2 ?_]
      · simp [List.filterMap_cons, hp]
      · intro c hc
        simp only [List.map_append, List.mem_append]
        push_neg
        refine ⟨hfresh c (by simp [List.filterMap_cons, hp, hc]), ?_⟩
        simp only [List.map_cons, List.map_nil, List.mem_singleton]
        intro hcontr
        exact hnotin (hcontr ▸ hc)

theorem formFold_some_spec (es : List (String × Bool × RefOr Schema)) :
    ∀ any : AnySchema, (es.map (fun e => e.1)).Nodup →
    (∀ e ∈ es, e.1 ∉ any.properties.map Prod.fst) →
    formFold (some any) es
      = some { any with properties := any.properties ++ es.map (fun e => (e.1, e.2.2)) } := by
  induction es with
  | nil => intro any _ _; simp [formFold]
  | cons e es ih =>
    intro any hnd hfresh
    simp only [formFold]
    rw [indexInsert_append e.1 e.2.2 any.properties (hfresh e (by simp))]
    rw [ih _ (by simpa using hnd.of_cons) ?_]
    · simp
    · intro e2 he2
      simp only [List.map_append, List.mem_append]
      push_neg
      refine ⟨hfresh e2 (by simp [he2]), ?_⟩
      simp only [List.map_cons, List.map_nil, List.mem_singleton]
      intro hcontr
      refine (List.nodup_cons.mp hnd).1 ?_
      show e.1 ∈ _
      rw [← hcontr]
      exact List.mem_map_of_mem (fun e => e.1) he2

theorem formFold_none_spec (e : String × Bool × RefOr Schema)
    (es : List (String × Bool × RefOr Schema))
    (hnd : (((e :: es)).map (fun x => x.1)).Nodup) :
    formFold none (e :: es)
      = some { properties := (e :: es).map (fun x => (x.1, x.2.2))
               required := if e.2.1 then [e.1] else [] } := by
  have hfresh : ∀ e2 ∈ es, e2.1 ∉ ([(e.1, e.2.2)] : List (String × RefOr Schema)).map Prod.fst := by
    intro e2 he2
    simp only [List.map_cons, List.map_nil, List.mem_singleton]
    intro hcontr
    refine (List.nodup_cons.mp hnd).1 ?_
    show e.1 ∈ _
    rw [← hcontr]
    exact List.mem_map_of_mem (fun x => x.1) he2
  rcases he : e.2.1 with _ | _
  · have hstep : formFold none (e :: es)
        = formFold (some { properties := [(e.1, e.2.2)], required := [] }) es := by
      simp [formFold, he, indexInsert]
    rw [hstep, formFold_some_spec es _ (by simpa using hnd.of_cons) hfresh]
    simp [he]
  · have hstep : formFold none (e :: es)
        = formFold (some { properties := [(e.1, e.2.2)], required := [e.1] }) es := by
      simp [formFold, he, indexInsert]
    rw [hstep, formFold_some_spec es _ (by simpa using hnd.of_cons) hfresh]
    simp [he]

theorem formFold_eq_none (es : List (String × Bool × RefOr Schema)) :
    formFold none es = none ↔ es = [] := by
  cases es with
  | nil => simp [formFold]
  | cons e es =>
    simp only [formFold]
    constructor
    · intro h
      exfalso
      have : ∀ (fd : AnySchema) es2, formFold (some fd) es2 ≠ none := by
        intro fd es2
        induction es2 generalizing fd with
        | nil => simp [formFold]
        | cons e2 es2 ih => simpa [formFold] using ih _
      exact this _ _ h
    · intro h
      exact absurd h (by simp)

theorem scan_form (ps : List (Either Reference Parameter)) :
    ∀ st : ParamScanState,
    (ps.foldl processParameter st).form_data = formFold st.form_data (formEntries ps) := by
  induction ps with
  | nil => intro st; rfl
  | cons p ps ih =>
    intro st
    simp only [List.foldl_cons]
    rcases p with r | q
    · rw [ih]
      rfl
    · obtain ⟨nm, loc, dsc, req, sch, dt, fmt⟩ := q
      cases loc
      all_goals rw [ih]
      case body =>
        rfl
      case formData =>
        rcases hfs :
            formSchemaOfParam { name := nm, in_ := .formData, description := dsc, required := req
                                schema := sch, data_type := dt, format := fmt } with _ | sch3
        · simp only [processParameter, paramIntoEither, hfs, formEntries, List.filterMap_cons]
        · have hfe :
              formEntries (Either.right { name := nm, in_ := .formData, description := dsc
                                          required := req, schema := sch, data_type := dt
                                          format := fmt } :: ps)
                = (nm, req, sch3) :: formEntries ps := by
            simp [formEntries, List.filterMap_cons, paramIntoEither, hfs]
          rw [hfe]
          rcases hfd : st.form_data with _ | any
          · simp only [processParameter, paramIntoEither, hfs, hfd, formFold]
          · simp only [processParameter, paramIntoEither, hfs, hfd, formFold]
      all_goals rfl

theorem scan_rb (ps : List (Either Reference Parameter)) :
    ∀ st : ParamScanState,
    (ps.foldl processParameter st).request_body
      = match (bodyParams ps).getLast? with
        | some B => some (requestBodyOfBodyParam B)
        | none => st.request_body := by
  induction ps with
  | nil => intro st; rfl
  | cons p ps ih =>
    intro st
    simp only [List.foldl_cons]
    rcases p with r | q
    · rw [ih]
      rfl
    · obtain ⟨nm, loc, dsc, req, sch, dt, fmt⟩ := q
      cases loc
      case body =>
        rw [ih]
        have hbp :
            bodyParams (Either.right { name := nm, in_ := .body, description := dsc
                                       required := req, schema := sch, data_type := dt
                                       format := fmt } :: ps)
              = { name := nm, in_ := .body, description := dsc, required := req
                  schema := sch, data_type := dt, format := fmt } :: bodyParams ps := by
          simp [bodyParams, List.filterMap_cons]
        rw [hbp]
        rcases h : bodyParams ps with _ | ⟨b, l⟩
        · simp only [h, List.getLast?_nil, List.getLast?_singleton]
          rfl
        · rw [List.getLast?_cons_cons, ← h]
          rcases hlast : (bodyParams ps).getLast? with _ | B
          · rw [h] at hlast
            simp at hlast
          · rfl
      case formData =>
        rw [ih]
        have hrb :
            (processParameter st (Either.right { name := nm, in_ := .formData, description := dsc
                                                 required := req, schema := sch, data_type := dt
                                                 format := fmt })).request_body
              = st.request_body := by
          simp only [processParameter, paramIntoEither]
          rcases hfs :
              formSchemaOfParam { name := nm, in_ := .formData, description := dsc
                                  required := req, schema := sch, data_type := dt
                                  format := fmt } with _ | sch3
          · rfl
          · rcases hfd : st.form_data with _ | any <;> rfl
        rw [hrb]
        rfl
      all_goals rw [ih] <;> rfl

@[simp]
theorem Items.un_of_mk (f : ItemsF Items) : (Items.mk f).un = f := rfl

/-- C10: for every v2 schema node whose reference field is set, the
conversion returns a pure reference node determined solely by the reference
string; every other attribute of the node is discarded (two nodes with the
same reference convert identically, whatever their other fields hold). -/
theorem C10_reference_node_pure (s : DefaultSchemaRaw) (r : String)
    (h : s.reference = some r) :
    schemaToV3 s = referenceToV3 r
    ∧ referenceToV3 r = RefOr.reference r
    ∧ ∀ s2 : DefaultSchemaRaw, s2.reference = some r → schemaToV3 s2 = schemaToV3 s := by
  obtain ⟨f⟩ := s
  simp only [DefaultSchemaRaw.reference_un, DefaultSchemaRaw.un_mk] at h
  refine ⟨?_, rfl, ?_⟩
  · rw [schemaToV3]
    simp [h]
  · intro s2 h2
    obtain ⟨f2⟩ := s2
    simp only [DefaultSchemaRaw.reference_un, DefaultSchemaRaw.un_mk] at h2
    rw [schemaToV3, schemaToV3]
    simp [h, h2]

/-- Witness for C10 at a concrete node carrying a reference plus stray inline
attributes. -/
theorem C10_reference_node_pure_witness :
    c10SchemaEx.reference = some "#/definitions/Pet"
    ∧ (schemaToV3 c10SchemaEx = referenceToV3 "#/definitions/Pet"
       ∧ referenceToV3 "#/definitions/Pet" = RefOr.reference "#/definitions/Pet"
       ∧ ∀ s2 : DefaultSchemaRaw, s2.reference = some "#/definitions/Pet"
           → schemaToV3 s2 = schemaToV3 c10SchemaEx) :=
  ⟨rfl, C10_reference_node_pure c10SchemaEx "#/definitions/Pet" rfl⟩

/-- C9: a v2 item schema without a data type, with a kind unsupported in item
position (object, file), or with a format invalid for its kind, converts to
the inline placeholder schema carrying a human-readable message instead of
aborting (the conversion is a total function by construction). -/
theorem C9_invalid_items_degrade_to_placeholder (it : Items)
    (h : invalidItemInput it = true) :
    (∃ msg, itemsToV3 it = invalid_referenceor msg)
    ∧ ∀ msg, invalid_referenceor msg
        = RefOr.item (Schema.mk { description := some msg } (.typ (.object {}))) := by
  refine ⟨?_, fun msg => rfl⟩
  obtain ⟨f⟩ := it
  simp only [invalidItemInput, Items.un_of_mk] at h
  rcases hdt : f.data_type with _ | dt
  · rw [itemsToV3]
    simp only [hdt]
    exact ⟨_, rfl⟩
  · rw [hdt] at h
    cases dt
    case object =>
      rw [itemsToV3]
      simp only [hdt]
      exact ⟨_, rfl⟩
    case file =>
      rw [itemsToV3]
      simp only [hdt]
      exact ⟨_, rfl⟩
    case boolean => simp at h
    case array => simp at h
    all_goals
      rcases hfmt : f.format with _ | ff
    case' integer.none | number.none | string.none =>
      rw [hfmt] at h
      simp at h
    all_goals rw [hfmt] at h
    all_goals cases ff <;>
      first
        | (simp at h
           done)
        | (rw [itemsToV3]
           simp only [hdt, hfmt]
           exact ⟨_, rfl⟩)

/-- Witness for C9 at an item schema lacking a data type. -/
theorem C9_invalid_items_degrade_to_placeholder_witness :
    invalidItemInput c9ItemEx = true
    ∧ ((∃ msg, itemsToV3 c9ItemEx = invalid_referenceor msg)
       ∧ ∀ msg, invalid_referenceor msg
           = RefOr.item (Schema.mk { description := some msg } (.typ (.object {})))) :=
  ⟨rfl, C9_invalid_items_degrade_to_placeholder c9ItemEx rfl⟩

/-- C8: schema naming is a deterministic pure function of the base name (the
declared identifier or its explicit rename) and the rendered names of the
generic arguments in declaration order, joined by a comma and a space inside
textual angle brackets. -/
theorem C8_naming_deterministic (t : TypeDef) (base : String) (names : List String)
    (hne : names ≠ []) :
    canonicalName t = schemaName (t.rename.getD t.ident) t.typeParamNames
    ∧ schemaName base (names.map some)
        = base ++ "<" ++ String.intercalate ", " names ++ ">"
    ∧ ∀ (b1 b2 : String) (a1 a2 : List (Option String)),
        b1 = b2 → a1 = a2 → schemaName b1 a1 = schemaName b2 a2 := by
  refine ⟨rfl, ?_, ?_⟩
  · rw [schemaName, if_neg (by simpa using hne)]
    congr 1
    induction names with
    | nil => rfl
    | cons n ns ih => simpa using congrArg (fun l => String.intercalate ", " l) (by simp)
  · rintro b1 b2 a1 a2 rfl rfl
    rfl

/-- Witness for C8 at a renamed generic type with two named arguments. -/
theorem C8_naming_deterministic_witness :
    (["Pet", "Order"] : List String) ≠ []
    ∧ (canonicalName c8TypeEx
         = schemaName (c8TypeEx.rename.getD c8TypeEx.ident) c8TypeEx.typeParamNames
       ∧ schemaName "Response" (["Pet", "Order"].map some)
           = "Response" ++ "<" ++ String.intercalate ", " ["Pet", "Order"] ++ ">"
       ∧ ∀ (b1 b2 : String) (a1 a2 : List (Option String)),
           b1 = b2 → a1 = a2 → schemaName b1 a1 = schemaName b2 a2) :=
  ⟨by decide, C8_naming_deterministic c8TypeEx "Response" ["Pet", "Order"] (by decide)⟩

/-- C4: nonempty field metadata overlaid on a named reference schema produces
a wrapper whose `all_of` has exactly two elements, the untouched original
reference schema followed by a fresh schema carrying only the metadata and
the matching data type; overlaid on an anonymous schema it is merged in
place with no `all_of` wrapper. -/
theorem C4_metadata_overlay (schema_ref : DefaultSchemaRaw) (m : FieldAnnotations)
    (hm : metadataIsEmpty m = false) :
    (schema_ref.name.isSome = true →
      (add_metadata_to_schema schema_ref m).all_of
        = [schema_ref, applyMetadata m (.mk { data_type := schema_ref.data_type })]
      ∧ (add_metadata_to_schema schema_ref m).all_of.length = 2
      ∧ (add_metadata_to_schema schema_ref m).all_of.head? = some schema_ref
      ∧ (applyMetadata m (.mk { data_type := schema_ref.data_type })).name = none
      ∧ (applyMetadata m (.mk { data_type := schema_ref.data_type })).reference = none
      ∧ (applyMetadata m (.mk { data_type := schema_ref.data_type })).data_type
          = schema_ref.data_type
      ∧ (applyMetadata m (.mk { data_type := schema_ref.data_type })).properties = []
      ∧ (applyMetadata m (.mk { data_type := schema_ref.data_type })).required = []
      ∧ (applyMetadata m (.mk { data_type := schema_ref.data_type })).any_of = []
      ∧ (applyMetadata m (.mk { data_type := schema_ref.data_type })).all_of = [])
    ∧ (schema_ref.name = none → add_metadata_to_schema schema_ref m = applyMetadata m schema_ref) := by
  have hmeta := applyMetadata_un m (.mk { data_type := schema_ref.data_type })
  constructor
  · intro hname
    rw [add_metadata_to_schema, if_neg (by simp [hm]), if_pos hname]
    refine ⟨by simp, by simp, by simp, ?_, ?_, ?_, ?_, ?_, ?_, ?_⟩
    · simpa using hmeta.1
    · simpa using hmeta.2.1
    · simpa using hmeta.2.2.1
    · simpa using hmeta.2.2.2.1
    · simpa using hmeta.2.2.2.2.1
    · simpa using hmeta.2.2.2.2.2.2.2.2.1
    · simpa using hmeta.2.2.2.2.2.2.2.2.2
  · intro hname
    have hn : schema_ref.un.name = none := hname
    rw [add_metadata_to_schema, if_neg (by simp [hm]), if_neg (by simp [hn])]

/-- Witness for C4 at a named reference schema and a description-carrying
metadata set. -/
theorem C4_metadata_overlay_witness :
    metadataIsEmpty c4MetaEx = false
    ∧ c4RefEx.name.isSome = true
    ∧ ((add_metadata_to_schema c4RefEx c4MetaEx).all_of
         = [c4RefEx, applyMetadata c4MetaEx (.mk { data_type := c4RefEx.data_type })]
       ∧ (add_metadata_to_schema c4RefEx c4MetaEx).all_of.length = 2) := by
  have h := (C4_metadata_overlay c4RefEx c4MetaEx rfl).1 rfl
  exact ⟨rfl, rfl, h.1, h.2.1⟩

theorem v2DataTypeToV3_typ (dt : DataType) (format : Option DataTypeFormat)
    (enum_ : List Json) (items : Option DefaultSchemaRaw)
    (properties : List (String × DefaultSchemaRaw)) (required : List String) :
    ∃ t, v2DataTypeToV3 dt format enum_ items properties required = .typ t := by
  unfold v2DataTypeToV3
  cases dt <;> exact ⟨_, rfl⟩

theorem schemaToV3_item_not_any (v : DefaultSchemaRaw) (sch : Schema)
    (h : schemaToV3 v = RefOr.item sch) : ∀ a : AnySchema, sch.schema_kind ≠ .any a := by
  intro a
  obtain ⟨f⟩ := v
  rw [schemaToV3] at h
  rcases href : f.reference with _ | r
  · simp only [href] at h
    rcases hdt : f.data_type with _ | dt
    · simp only [hdt] at h
      split at h
      · injection h with h2
        rw [← h2]
        simp [Schema.schema_kind]
      · split at h
        · injection h with h2
          rw [← h2]
          simp [Schema.schema_kind]
        · split at h
          · split at h
            all_goals
              injection h with h2
            all_goals
              rw [← h2]
            all_goals simp [Schema.schema_kind]
          · injection h with h2
            rw [← h2]
            simp [Schema.schema_kind]
    · simp only [hdt] at h
      obtain ⟨t, ht⟩ := v2DataTypeToV3_typ dt f.format f.enum_ f.items f.properties f.required
      rw [ht] at h
      injection h with h2
      rw [← h2]
      simp [Schema.schema_kind]
  · simp only [href, referenceToV3] at h
    exact RefOr.noConfusion h

/-- C3: the v3 responses map holds exactly the v2 entries whose key parses as
an unsigned 16-bit integer, keyed by the parsed code (values converted); any
key that fails to parse, such as the "default" wildcard bucket, is dropped,
and the v3 default-response slot stays empty.  The no-duplicate-codes
hypothesis reflects the `BTreeMap` input (distinct textual keys) parsing to
distinct codes. -/
theorem C3_responses_numeric_keys_only (op : Operation)
    (hcodes : (op.responses.filterMap (fun kv => parseU16 kv.1)).Nodup) :
    (convertOperation op).responses.default = none
    ∧ (convertOperation op).responses.responses
        = op.responses.filterMap
            (fun kv => (parseU16 kv.1).map
              (fun code => (code, operationEitherResponseToV3 op kv.2)))
    ∧ parseU16 "default" = none := by
  refine ⟨rfl, ?_, by decide⟩
  show (convertResponses op).responses = _
  rw [convertResponses]
  rw [respFold_spec op op.responses [] hcodes (by simp)]
  simp

/-- Witness for C3 at an operation with responses keyed 200, 404 and
default. -/
theorem C3_responses_numeric_keys_only_witness :
    (c3OpEx.responses.filterMap (fun kv => parseU16 kv.1)).Nodup
    ∧ ((convertOperation c3OpEx).responses.default = none
       ∧ (convertOperation c3OpEx).responses.responses
           = c3OpEx.responses.filterMap
               (fun kv => (parseU16 kv.1).map
                 (fun code => (code, operationEitherResponseToV3 c3OpEx kv.2)))
       ∧ parseU16 "default" = none)
    ∧ (convertOperation c3OpEx).responses.responses.map Prod.fst = [200, 404] := by
  refine ⟨by decide, C3_responses_numeric_keys_only c3OpEx (by decide), rfl⟩

/-- C6: when an operation has form contributions, no explicit body parameter
and a declared set of accepted media types, the produced request body has
exactly one content entry per declared media type, each carrying the same
synthesized form schema. -/
theorem C6_form_payload_per_media_type (op : Operation) (ms : List String)
    (hc : op.consumes = some ms) (hms : ms.Nodup)
    (hnb : bodyParams op.parameters = [])
    (hf : formEntries op.parameters ≠ []) :
    ∃ fd, (scanParameters op).form_data = some fd
      ∧ (convertOperation op).request_body
          = some (.item
              { description := none
                content := ms.map (fun media =>
                    (media, ({ schema := some (.item (Schema.mk {} (.any fd))) } : MediaType)))
                required := false }) := by
  have hform : (scanParameters op).form_data = formFold none (formEntries op.parameters) :=
    scan_form op.parameters {}
  rcases hfd : (scanParameters op).form_data with _ | fd
  · exfalso
    rw [hfd] at hform
    exact hf ((formFold_eq_none (formEntries op.parameters)).mp hform.symm)
  · refine ⟨fd, rfl, ?_⟩
    show resolveRequestBody (scanParameters op).request_body (scanParameters op).form_data
      op.consumes = _
    have hrb : (scanParameters op).request_body = none := by
      rw [scanParameters, scan_rb]
      simp [hnb]
    rw [hrb, hfd, hc]
    simp only [resolveRequestBody]
    rw [consumesFold_spec _ ms [] hms (by simp)]
    simp

/-- Witness for C6 at an operation with two form parameters and two accepted
media types. -/
theorem C6_form_payload_per_media_type_witness :
    c6OpEx.consumes = some ["application/x-www-form-urlencoded", "multipart/form-data"]
    ∧ (["application/x-www-form-urlencoded", "multipart/form-data"] : List String).Nodup
    ∧ bodyParams c6OpEx.parameters = []
    ∧ formEntries c6OpEx.parameters ≠ []
    ∧ ∃ fd, (scanParameters c6OpEx).form_data = some fd
        ∧ (convertOperation c6OpEx).request_body
            = some (.item
                { description := none
                  content := (["application/x-www-form-urlencoded", "multipart/form-data"]
                    : List String).map (fun media =>
                      (media, ({ schema := some (.item (Schema.mk {} (.any fd))) } : MediaType)))
                  required := false }) := by
  have hfne : formEntries c6OpEx.parameters ≠ [] := by
    intro hcontr
    have hlen := congrArg List.length hcontr
    simp only [List.length_nil] at hlen
    exact absurd hlen (by decide)
  exact ⟨rfl, by decide, rfl, hfne,
    C6_form_payload_per_media_type c6OpEx _ rfl (by decide) rfl hfne⟩

/-- C1: when the parameter list holds exactly one explicit body-location
parameter next to form-location parameters, the produced request body is the
explicit body parameter's request body, and the synthesized form schema does
not appear as the request payload (every schema in the explicit payload's
content comes from the body parameter and is never the `Any` shape that
wraps a synthesized form). -/
theorem C1_explicit_body_wins (op : Operation) (B : Parameter)
    (hone : bodyParams op.parameters = [B])
    (hform : formLocationParams op.parameters ≠ []) :
    (convertOperation op).request_body = some (.item (requestBodyOfBodyParam B))
    ∧ ∀ media mt, (media, mt) ∈ (requestBodyOfBodyParam B).content →
        ∀ sch : Schema, mt.schema = some (.item sch) →
          ∀ a : AnySchema, sch.schema_kind ≠ .any a := by
  constructor
  · show resolveRequestBody (scanParameters op).request_body (scanParameters op).form_data
      op.consumes = _
    have hrb : (scanParameters op).request_body = some (requestBodyOfBodyParam B) := by
      rw [scanParameters, scan_rb]
      simp [hone]
    rw [hrb]
    rfl
  · intro media mt hmem sch hsch
    simp only [requestBodyOfBodyParam, List.mem_singleton, Prod.mk.injEq] at hmem
    rcases hmem with ⟨hmedia, hmt⟩
    rw [hmt] at hsch
    have hsch1 : Option.map schemaToV3 B.schema = some (RefOr.item sch) := hsch
    rcases hb : B.schema with _ | v
    · rw [hb] at hsch1
      simp at hsch1
    · rw [hb] at hsch1
      simp only [Option.map_some'] at hsch1
      injection hsch1 with hsch2
      exact schemaToV3_item_not_any v sch hsch2

/-- Witness for C1 at an operation with one body parameter between two form
parameters. -/
theorem C1_explicit_body_wins_witness :
    bodyParams c1OpEx.parameters = [c1BodyEx]
    ∧ formLocationParams c1OpEx.parameters ≠ []
    ∧ ((convertOperation c1OpEx).request_body = some (.item (requestBodyOfBodyParam c1BodyEx))
       ∧ ∀ media mt, (media, mt) ∈ (requestBodyOfBodyParam c1BodyEx).content →
           ∀ sch : Schema, mt.schema = some (.item sch) →
             ∀ a : AnySchema, sch.schema_kind ≠ .any a) := by
  have hform : formLocationParams c1OpEx.parameters ≠ [] := by
    intro hcontr
    have hlen := congrArg List.length hcontr
    simp only [List.length_nil] at hlen
    exact absurd hlen (by decide)
  exact ⟨rfl, hform, C1_explicit_body_wins c1OpEx c1BodyEx rfl hform⟩

/-- C2 counterexample: on an operation with three form parameters of which
only the second is required, the synthesized required set is empty, not of
size one; the required flag of a non-first form parameter does not
propagate. -/
theorem C2_required_flag_counterexample :
    (formEntries c2OpCex.parameters).map (fun e => (e.1, e.2.1))
      = [("a", false), ("b", true), ("c", false)]
    ∧ ¬ (∀ fd : AnySchema, (scanParameters c2OpCex).form_data = some fd
          → fd.required.length = 1) := by
  refine ⟨rfl, ?_⟩
  intro h
  have h2 : ((scanParameters c2OpCex).form_data.map (fun fd => fd.required.length)) = some 0 :=
    rfl
  rcases hfd : (scanParameters c2OpCex).form_data with _ | fd
  · rw [hfd] at h2
    simp at h2
  · have h3 := h fd hfd
    rw [hfd] at h2
    simp only [Option.map_some', Option.some.injEq] at h2
    omega

/-- C2 amended: the synthesized form schema has one property per
distinctly-named form contribution, in scan order, and its required set is
seeded only from the first form parameter encountered: it is the singleton
of the first form parameter's name when that parameter is required and empty
otherwise, whatever the required flags of the later form parameters. -/
theorem C2_form_schema_amended (op : Operation) (e0 : String × Bool × RefOr Schema)
    (es : List (String × Bool × RefOr Schema))
    (hnb : bodyParams op.parameters = [])
    (hentries : formEntries op.parameters = e0 :: es)
    (hnd : ((e0 :: es).map (fun x => x.1)).Nodup) :
    ∃ fd, (scanParameters op).form_data = some fd
      ∧ fd.properties = (e0 :: es).map (fun x => (x.1, x.2.2))
      ∧ fd.properties.length = (formEntries op.parameters).length
      ∧ fd.required = (if e0.2.1 then [e0.1] else []) := by
  have hform : (scanParameters op).form_data = formFold none (formEntries op.parameters) :=
    scan_form op.parameters {}
  rw [hentries, formFold_none_spec e0 es hnd] at hform
  refine ⟨_, hform, rfl, ?_, rfl⟩
  rw [hentries]
  simp

/-- Witness for the amended C2 at an operation with three form parameters of
which the first is required. -/
theorem C2_form_schema_amended_witness :
    bodyParams c2OpEx.parameters = []
    ∧ (formEntries c2OpEx.parameters).map (fun e => (e.1, e.2.1))
        = [("a", true), ("b", false), ("c", false)]
    ∧ ∃ fd, (scanParameters c2OpEx).form_data = some fd
        ∧ fd.properties.length = (formEntries c2OpEx.parameters).length
        ∧ fd.required = ["a"] := by
  have hfe : formEntries c2OpEx.parameters
      = ("a", true, schemaToV3 (.mk { data_type := some .string }))
        :: [("b", false, schemaToV3 (.mk { data_type := some .string })),
            ("c", false, schemaToV3 (.mk { data_type := some .string }))] := rfl
  obtain ⟨fd, h1, h2, h3, h4⟩ :=
    C2_form_schema_amended c2OpEx _ _ rfl hfe (by decide)
  exact ⟨rfl, rfl, fd, h1, h3, by rw [h4]; rfl⟩

theorem wrapVariant_push (tagType : SerdeEnumTagType) (evn name : String)
    (docsOpt : Option String) (inner : DefaultSchemaRaw) (ige : Bool)
    (schema : DefaultSchemaRaw) :
    wrapVariant tagType evn name docsOpt inner ige schema
      = schema.pushAnyOf
          (((wrapVariant tagType evn name docsOpt inner ige (.mk {})).any_of).headI) := by
  cases ige <;> cases tagType <;> rfl

theorem handleVariant_push (build : TypeDef → DefaultSchemaRaw) (env : List TypeDef)
    (t : TypeDef) (enum_name : String) (sc : Bool) (schema : DefaultSchemaRaw)
    (v : VariantDesc) :
    handleVariant build env t enum_name sc false schema v
      = schema.pushAnyOf (variantAnyOfEntry build env t enum_name sc v) := by
  rw [handleVariant, variantAnyOfEntry]
  simp only [Bool.false_eq_true, if_false]
  rcases v.fields with _ | fs | fs
  · rcases sc with _ | _
    · simp only [Bool.false_eq_true, if_false]
      exact wrapVariant_push _ _ _ _ _ _ _
    · rfl
  · exact wrapVariant_push _ _ _ _ _ _ _
  · exact wrapVariant_push _ _ _ _ _ _ _

theorem foldl_pushAnyOf (g : VariantDesc → DefaultSchemaRaw) (vs : List VariantDesc) :
    ∀ schema : DefaultSchemaRaw,
    vs.foldl (fun s v => s.pushAnyOf (g v)) schema
      = .mk { schema.un with any_of := schema.un.any_of ++ vs.map g } := by
  induction vs with
  | nil =>
    intro schema
    cases schema
    simp
  | cons v vs ih =>
    intro schema
    simp only [List.foldl_cons]
    rw [ih]
    cases schema
    simp

theorem handleEnum_not_only_simple (build : TypeDef → DefaultSchemaRaw) (env : List TypeDef)
    (t : TypeDef) (vs : List VariantDesc) (schema : DefaultSchemaRaw)
    (honly : ((t.tagType == SerdeEnumTagType.external || t.tagType == SerdeEnumTagType.untagged)
        && (vs.filter (fun v => !v.skip)).all isUnitVariant) = false) :
    (handleEnum build env t vs schema).un.enum_ = schema.un.enum_
    ∧ (handleEnum build env t vs schema).un.any_of
        = schema.un.any_of
          ++ (vs.filter (fun v => !v.skip)).map
              (variantAnyOfEntry build env t (schema.un.name.getD "")
                (t.tagType == SerdeEnumTagType.external
                  || t.tagType == SerdeEnumTagType.untagged)) := by
  rw [handleEnum]
  simp only [honly, Bool.false_eq_true, if_false]
  rw [show (handleVariant build env t
        ((if t.meta.docs = "" then schema
          else schema.withDescription (some t.meta.docs)).name.getD "")
        (t.tagType == SerdeEnumTagType.external || t.tagType == SerdeEnumTagType.untagged)
        false)
      = (fun s v => s.pushAnyOf
          (variantAnyOfEntry build env t
            ((if t.meta.docs = "" then schema
              else schema.withDescription (some t.meta.docs)).name.getD "")
            (t.tagType == SerdeEnumTagType.external
              || t.tagType == SerdeEnumTagType.untagged) v))
    from funext fun s => funext fun v => handleVariant_push _ _ _ _ _ _ _]
  rw [foldl_pushAnyOf]
  constructor
  · split <;> simp
  · split <;> simp

/-- C5 counterexample: under external tagging, a union with one unit variant
and one data-carrying variant does not turn every variant into an object
with exactly one property; the unit variant becomes a bare constant schema
with no properties at all. -/
theorem C5_unit_variant_counterexample :
    (rawSchema c5Env 2 c5Union).any_of.length = 2
    ∧ ¬ (∀ e ∈ (rawSchema c5Env 2 c5Union).any_of,
          ∃ pname pval, e.properties = [(pname, pval)] ∧ e.required = [pname]) := by
  constructor
  · rfl
  · intro h
    have hmem : DefaultSchemaRaw.mk { const_ := some (.str "A") }
        ∈ (rawSchema c5Env 2 c5Union).any_of := by
      have hl : ((rawSchema c5Env 2 c5Union).any_of.headI)
          = DefaultSchemaRaw.mk { const_ := some (.str "A") } := rfl
      have hlen : (rawSchema c5Env 2 c5Union).any_of.length = 2 := rfl
      rcases hao : (rawSchema c5Env 2 c5Union).any_of with _ | ⟨e, rest⟩
      · rw [hao] at hlen
        simp at hlen
      · rw [hao] at hl
        simp only [List.headI_cons] at hl
        rw [← hl]
        exact List.mem_cons_self _ _
    obtain ⟨pname, pval, hp, hr⟩ := h _ hmem
    simp [DefaultSchemaRaw.properties] at hp

/-- C5 amended: under external tagging, a union with at least one
data-carrying variant never produces the plain string enum shape (`enum_`
stays empty); each data-carrying variant becomes an object with exactly one
required property named after the (possibly renamed) variant holding the
variant's data, while each unit variant becomes a bare constant schema
(`const_` = variant name) pushed directly into `any_of`; and only an
all-unit union under external or untagged tagging can produce the plain
string enum. -/
theorem C5_external_tagging_amended (env : List TypeDef) (fuel : Nat) (t : TypeDef)
    (vs : List VariantDesc)
    (hbody : t.body = .enumBody vs)
    (htag : t.tagType = .external)
    (hmixed : (vs.filter (fun v => !v.skip)).all isUnitVariant = false) :
    (rawSchema env (fuel+1) t).enum_ = []
    ∧ (rawSchema env (fuel+1) t).any_of
        = (vs.filter (fun v => !v.skip)).map
            (variantAnyOfEntry (rawSchema env fuel) env t ((openApiName t).getD "") true)
    ∧ (∀ v : VariantDesc, isUnitVariant v = true →
        (variantAnyOfEntry (rawSchema env fuel) env t ((openApiName t).getD "") true v).const_
          = some (.str (renameOf t.renameAll v.serdeRename v.ident))
        ∧ (variantAnyOfEntry (rawSchema env fuel) env t ((openApiName t).getD "") true
            v).properties = [])
    ∧ (∀ v : VariantDesc, isUnitVariant v = false →
        ∃ inner,
          (variantAnyOfEntry (rawSchema env fuel) env t ((openApiName t).getD "") true
            v).properties = [(renameOf t.renameAll v.serdeRename v.ident, inner)]
          ∧ (variantAnyOfEntry (rawSchema env fuel) env t ((openApiName t).getD "") true
              v).required = [renameOf t.renameAll v.serdeRename v.ident])
    ∧ (∀ (env2 : List TypeDef) (fuel2 : Nat) (t2 : TypeDef) (vs2 : List VariantDesc),
        t2.body = .enumBody vs2 → (rawSchema env2 (fuel2+1) t2).enum_ ≠ [] →
        ((t2.tagType = .external ∨ t2.tagType = .untagged)
          ∧ ∀ v ∈ vs2, v.skip = false → isUnitVariant v = true)) := by
  have hpg : propsGen (rawSchema env fuel) env t
      (.mk { name := openApiName t, «example» := t.meta.«example» })
      = handleEnum (rawSchema env fuel) env t vs
          (.mk { name := openApiName t, «example» := t.meta.«example» }) := by
    rw [propsGen, hbody]
  have honly : ((t.tagType == SerdeEnumTagType.external
      || t.tagType == SerdeEnumTagType.untagged)
      && (vs.filter (fun v => !v.skip)).all isUnitVariant) = false := by
    simp [htag, hmixed]
  have hsc : (t.tagType == SerdeEnumTagType.external
      || t.tagType == SerdeEnumTagType.untagged) = true := by
    simp [htag]
  have he := handleEnum_not_only_simple (rawSchema env fuel) env t vs
    (.mk { name := openApiName t, «example» := t.meta.«example» }) honly
  have hraw : rawSchema env (fuel+1) t
      = (propsGen (rawSchema env fuel) env t
          (.mk { name := openApiName t, «example» := t.meta.«example» })).withName
          (openApiName t) := rfl
  refine ⟨?_, ?_, ?_, ?_, ?_⟩
  · rw [DefaultSchemaRaw.enum_un, hraw, hpg]
    simp only [DefaultSchemaRaw.un_withName]
    rw [he.1]
    rfl
  · rw [DefaultSchemaRaw.any_of_un, hraw, hpg]
    simp only [DefaultSchemaRaw.un_withName]
    rw [he.2]
    rw [hsc]
    simp
  · intro v hvu
    rw [variantAnyOfEntry]
    rcases hf : v.fields with _ | fs | fs
    · constructor <;> rfl
    · rw [isUnitVariant, hf] at hvu
      simp at hvu
    · rw [isUnitVariant, hf] at hvu
      simp at hvu
  · intro v hvu
    rw [variantAnyOfEntry, htag]
    rcases hf : v.fields with _ | fs | fs
    · rw [isUnitVariant, hf] at hvu
      simp at hvu
    · exact ⟨_, rfl, rfl⟩
    · exact ⟨_, rfl, rfl⟩
  · intro env2 fuel2 t2 vs2 hbody2 hne
    have hpg2 : propsGen (rawSchema env2 fuel2) env2 t2
        (.mk { name := openApiName t2, «example» := t2.meta.«example» })
        = handleEnum (rawSchema env2 fuel2) env2 t2 vs2
            (.mk { name := openApiName t2, «example» := t2.meta.«example» }) := by
      rw [propsGen, hbody2]
    rcases honly2 : ((t2.tagType == SerdeEnumTagType.external
        || t2.tagType == SerdeEnumTagType.untagged)
        && (vs2.filter (fun v => !v.skip)).all isUnitVariant) with _ | _
    · exfalso
      apply hne
      have he2 := handleEnum_not_only_simple (rawSchema env2 fuel2) env2 t2 vs2
        (.mk { name := openApiName t2, «example» := t2.meta.«example» }) honly2
      have hraw2 : rawSchema env2 (fuel2+1) t2
          = (propsGen (rawSchema env2 fuel2) env2 t2
              (.mk { name := openApiName t2, «example» := t2.meta.«example» })).withName
              (openApiName t2) := rfl
      rw [DefaultSchemaRaw.enum_un, hraw2, hpg2]
      simp only [DefaultSchemaRaw.un_withName]
      rw [he2.1]
      rfl
    · simp only [Bool.and_eq_true, Bool.or_eq_true, beq_iff_eq, List.all_eq_true] at honly2
      refine ⟨honly2.1, ?_⟩
      intro v hv hskip
      exact honly2.2 v (List.mem_filter.mpr ⟨hv, by simp [hskip]⟩)

/-- Witness for the amended C5 at the mixed external union of the
counterexample environment. -/
theorem C5_external_tagging_amended_witness :
    c5Union.body = .enumBody
      [{ ident := "A", fields := .unit },
       { ident := "B", fields := .named [{ ident := "x", tyIdx := 1 }] }]
    ∧ c5Union.tagType = .external
    ∧ (([{ ident := "A", fields := .unit },
         { ident := "B", fields := .named [{ ident := "x", tyIdx := 1 }] }]
          : List VariantDesc).filter (fun v => !v.skip)).all isUnitVariant = false
    ∧ (rawSchema c5Env 2 c5Union).enum_ = []
    ∧ (rawSchema c5Env 2 c5Union).any_of.length = 2 := by
  have h := C5_external_tagging_amended c5Env 1 c5Union
    [{ ident := "A", fields := .unit },
     { ident := "B", fields := .named [{ ident := "x", tyIdx := 1 }] }]
    rfl rfl rfl
  exact ⟨rfl, rfl, rfl, h.1, rfl⟩

theorem exists_refs_pair (xs : List (String × DefaultSchemaRaw)) (r : String) :
    (∃ l, r ∈ l ∧ ∃ a b, l = refsIn b ∧ (a, b) ∈ xs)
      ↔ ∃ a b, r ∈ refsIn b ∧ (a, b) ∈ xs := by
  constructor
  · rintro ⟨l, hr, a, b, rfl, hab⟩
    exact ⟨a, b, hr, hab⟩
  · rintro ⟨a, b, hr, hab⟩
    exact ⟨refsIn b, hr, a, b, rfl, hab⟩

theorem exists_refs_elem (xs : List DefaultSchemaRaw) (r : String) :
    (∃ l, r ∈ l ∧ ∃ a, l = refsIn a ∧ a ∈ xs) ↔ ∃ a ∈ xs, r ∈ refsIn a := by
  constructor
  · rintro ⟨l, hr, a, rfl, ha⟩
    exact ⟨a, ha, hr⟩
  · rintro ⟨a, ha, hr⟩
    exact ⟨refsIn a, hr, a, rfl, ha⟩

theorem mem_refsIn {r : String} {f : SchemaRawF DefaultSchemaRaw} :
    r ∈ refsIn (.mk f)
    ↔ (f.reference = some r
       ∨ (∃ kv ∈ f.properties, r ∈ refsIn kv.2)
       ∨ (∃ i, f.items = some i ∧ r ∈ refsIn i)
       ∨ (∃ a ∈ f.any_of, r ∈ refsIn a)
       ∨ (∃ a ∈ f.all_of, r ∈ refsIn a)) := by
  rw [refsIn]
  rcases hi : f.items with _ | i <;>
    simp [hi, List.mem_flatten, List.mem_map, List.mem_attach, Option.mem_toList,
      eq_comm, and_comm, exists_refs_pair, exists_refs_elem]

theorem mem_refs_withName {r : String} (s : DefaultSchemaRaw) (v : Option String) :
    r ∈ refsIn (s.withName v) ↔ r ∈ refsIn s := by
  obtain ⟨f⟩ := s
  rw [show (DefaultSchemaRaw.mk f).withName v = .mk { f with name := v } from rfl]
  rw [mem_refsIn, mem_refsIn]

theorem mem_refs_withDataType {r : String} (s : DefaultSchemaRaw) (v : Option DataType) :
    r ∈ refsIn (s.withDataType v) ↔ r ∈ refsIn s := by
  obtain ⟨f⟩ := s
  rw [show (DefaultSchemaRaw.mk f).withDataType v = .mk { f with data_type := v } from rfl]
  rw [mem_refsIn, mem_refsIn]

theorem mem_refs_withDescription {r : String} (s : DefaultSchemaRaw) (v : Option String) :
    r ∈ refsIn (s.withDescription v) ↔ r ∈ refsIn s := by
  obtain ⟨f⟩ := s
  rw [show (DefaultSchemaRaw.mk f).withDescription v = .mk { f with description := v } from rfl]
  rw [mem_refsIn, mem_refsIn]

theorem mem_refs_withExample {r : String} (s : DefaultSchemaRaw) (v : Option Json) :
    r ∈ refsIn (s.withExample v) ↔ r ∈ refsIn s := by
  obtain ⟨f⟩ := s
  rw [show (DefaultSchemaRaw.mk f).withExample v = .mk { f with «example» := v } from rfl]
  rw [mem_refsIn, mem_refsIn]

theorem mem_refs_pushEnum {r : String} (s : DefaultSchemaRaw) (v : Json) :
    r ∈ refsIn (s.pushEnum v) ↔ r ∈ refsIn s := by
  obtain ⟨f⟩ := s
  rw [show (DefaultSchemaRaw.mk f).pushEnum v = .mk { f with enum_ := f.enum_ ++ [v] } from rfl]
  rw [mem_refsIn, mem_refsIn]

theorem mem_refs_insertRequired {r : String} (s : DefaultSchemaRaw) (k : String) :
    r ∈ refsIn (s.insertRequired k) ↔ r ∈ refsIn s := by
  obtain ⟨f⟩ := s
  rw [show (DefaultSchemaRaw.mk f).insertRequired k
      = .mk { f with required := btreeSetInsert k f.required } from rfl]
  rw [mem_refsIn, mem_refsIn]

theorem mem_refs_insertExtension {r : String} (s : DefaultSchemaRaw) (k : String) (v : Json) :
    r ∈ refsIn (s.insertExtension k v) ↔ r ∈ refsIn s := by
  obtain ⟨f⟩ := s
  rw [show (DefaultSchemaRaw.mk f).insertExtension k v
      = .mk { f with extensions := btreeInsert k v f.extensions } from rfl]
  rw [mem_refsIn, mem_refsIn]

theorem mem_refs_applyMetadata {r : String} (m : FieldAnnotations) (s : DefaultSchemaRaw) :
    r ∈ refsIn (applyMetadata m s) ↔ r ∈ refsIn s := by
  unfold applyMetadata
  repeat' split
  all_goals
    simp [mem_refs_withDescription, mem_refs_insertExtension, mem_refs_withExample]

theorem mem_refs_pushAnyOf {r : String} (s v : DefaultSchemaRaw) :
    r ∈ refsIn (s.pushAnyOf v) ↔ (r ∈ refsIn s ∨ r ∈ refsIn v) := by
  obtain ⟨f⟩ := s
  rw [show (DefaultSchemaRaw.mk f).pushAnyOf v
      = .mk { f with any_of := f.any_of ++ [v] } from rfl]
  rw [mem_refsIn, mem_refsIn]
  simp only [List.mem_append, List.mem_singleton]
  constructor
  · rintro (h | h | h | ⟨a, ha | rfl, hr⟩ | h)
    · exact Or.inl (Or.inl h)
    · exact Or.inl (Or.inr (Or.inl h))
    · exact Or.inl (Or.inr (Or.inr (Or.inl h)))
    · exact Or.inl (Or.inr (Or.inr (Or.inr (Or.inl ⟨a, ha, hr⟩))))
    · exact Or.inr hr
    · exact Or.inl (Or.inr (Or.inr (Or.inr (Or.inr h))))
  · rintro ((h | h | h | ⟨a, ha, hr⟩ | h) | h)
    · exact Or.inl h
    · exact Or.inr (Or.inl h)
    · exact Or.inr (Or.inr (Or.inl h))
    · exact Or.inr (Or.inr (Or.inr (Or.inl ⟨a, Or.inl ha, hr⟩)))
    · exact Or.inr (Or.inr (Or.inr (Or.inr h)))
    · exact Or.inr (Or.inr (Or.inr (Or.inl ⟨v, Or.inr rfl, h⟩)))

theorem mem_refs_insertProperty {r : String} (s : DefaultSchemaRaw) (k : String)
    (v : DefaultSchemaRaw) (h : r ∈ refsIn (s.insertProperty k v)) :
    r ∈ refsIn s ∨ r ∈ refsIn v := by
  obtain ⟨f⟩ := s
  rw [show (DefaultSchemaRaw.mk f).insertProperty k v
      = .mk { f with properties := btreeInsert k v f.properties } from rfl] at h
  rw [mem_refsIn] at h
  rw [mem_refsIn]
  rcases h with h | ⟨kv, hkv, hr⟩ | h | h | h
  · exact Or.inl (Or.inl h)
  · rcases mem_btreeInsert hkv with rfl | hkv2
    · exact Or.inr hr
    · exact Or.inl (Or.inr (Or.inl ⟨kv, hkv2, hr⟩))
  · exact Or.inl (Or.inr (Or.inr (Or.inl h)))
  · exact Or.inl (Or.inr (Or.inr (Or.inr (Or.inl h))))
  · exact Or.inl (Or.inr (Or.inr (Or.inr (Or.inr h))))

theorem mem_refs_flattened {r : String} (a b : DefaultSchemaRaw) :
    r ∈ refsIn (flattenedSchema a b) ↔ (r ∈ refsIn a ∨ r ∈ refsIn b) := by
  rw [flattenedSchema, mem_refsIn]
  simp

theorem mem_refs_withReference {r : String} (s : DefaultSchemaRaw) (x : String)
    (h : r ∈ refsIn (s.withReference (some x))) : r = x ∨ r ∈ refsIn s := by
  obtain ⟨f⟩ := s
  rw [show (DefaultSchemaRaw.mk f).withReference (some x)
      = .mk { f with reference := some x } from rfl] at h
  rw [mem_refsIn] at h
  rw [mem_refsIn]
  rcases h with h | h | h | h | h
  · simp only [Option.some.injEq] at h
    exact Or.inl h.symm
  · refine Or.inr <| Or.inr <| Or.inl h
  · refine Or.inr <| Or.inr <| Or.inr <| Or.inl h
  · refine Or.inr <| Or.inr <| Or.inr <| Or.inr <| Or.inl h
  · refine Or.inr <| Or.inr <| Or.inr <| Or.inr <| Or.inr h

theorem refsIn_no_refs {f : SchemaRawF DefaultSchemaRaw} (h1 : f.reference = none)
    (h2 : f.properties = []) (h3 : f.items = none) (h4 : f.any_of = [])
    (h5 : f.all_of = []) : refsIn (.mk f) = [] := by
  rw [List.eq_nil_iff_forall_not_mem]
  intro r
  rw [mem_refsIn]
  simp [h1, h2, h3, h4, h5]

theorem mem_refs_add_metadata {r : String} (s : DefaultSchemaRaw) (m : FieldAnnotations)
    (h : r ∈ refsIn (add_metadata_to_schema s m)) : r ∈ refsIn s := by
  rw [add_metadata_to_schema] at h
  split at h
  · exact h
  · split at h
    · rw [mem_refsIn] at h
      rcases h with h | h | h | h | ⟨a, ha, hr⟩
      · simp at h
      · simp at h
      · simp at h
      · simp at h
      · simp only [List.mem_cons, List.mem_singleton, List.not_mem_nil, or_false] at ha
        rcases ha with rfl | rfl
        · exact hr
        · rw [mem_refs_applyMetadata] at hr
          rw [refsIn_no_refs rfl rfl rfl rfl rfl] at hr
          simp at hr
    · rwa [mem_refs_applyMetadata] at h

theorem mem_refs_schemaWithRef {r : String} (build : TypeDef → DefaultSchemaRaw) (u : TypeDef)
    (h : r ∈ refsIn (schemaWithRef build u)) :
    (∃ n, openApiName u = some n ∧ r = "#/definitions/" ++ n) ∨ r ∈ refsIn (build u) := by
  rw [schemaWithRef] at h
  rcases ho : openApiName u with _ | n
  · rw [ho] at h
    exact Or.inr h
  · rw [ho] at h
    rw [mem_refsIn] at h
    rcases h with h | h | h | h | h
    · simp only [Option.some.injEq] at h
      exact Or.inl ⟨n, rfl, h.symm⟩
    · simp at h
    · simp at h
    · simp at h
    · simp at h

theorem mem_refs_fieldSchemaRef {r : String} (build : TypeDef → DefaultSchemaRaw)
    (env : List TypeDef) (inline : Bool) (idx : Nat)
    (hb : ∀ u ∈ env, ∀ r2 ∈ refsIn (build u), AllowedBase env r2)
    (hanon : refsIn (build anonEmptyType) = [])
    (h : r ∈ refsIn (fieldSchemaRef build env inline idx)) : AllowedBase env r := by
  rw [fieldSchemaRef] at h
  have hres : resolveTy env idx = anonEmptyType ∨ resolveTy env idx ∈ env := by
    rw [resolveTy]
    rcases hg : env.get? idx with _ | u
    · exact Or.inl rfl
    · exact Or.inr (by simpa using List.get?_mem hg)
  split at h
  · rcases hres with he | he
    · rw [he, hanon] at h
      simp at h
    · exact hb _ he r h
  · rcases mem_refs_schemaWithRef build _ h with ⟨n, hn, rfl⟩ | h2
    · rcases hres with he | he
      · rw [he] at hn
        simp [openApiName, anonEmptyType] at hn
      · refine ⟨n, Or.inl ?_, rfl⟩
        rw [definedRefNames]
        exact List.mem_filterMap.mpr ⟨_, he, hn⟩
    · rcases hres with he | he
      · rw [he, hanon] at h2
        simp at h2
      · exact hb _ he r h2

theorem mem_refs_processNamedField {r : String} (build : TypeDef → DefaultSchemaRaw)
    (env : List TypeDef) (ra : Option SerdeRename) (schema : DefaultSchemaRaw) (f : FieldDesc)
    (hb : ∀ u ∈ env, ∀ r2 ∈ refsIn (build u), AllowedBase env r2)
    (hanon : refsIn (build anonEmptyType) = [])
    (h : r ∈ refsIn (processNamedField build env ra schema f)) :
    r ∈ refsIn schema ∨ AllowedBase env r := by
  simp only [processNamedField] at h
  split at h
  · exact Or.inl h
  · split at h
    · rw [mem_refs_flattened] at h
      rcases h with h | h
      · exact Or.inl h
      · exact Or.inr (mem_refs_fieldSchemaRef build env _ _ hb hanon h)
    · split at h
      · rw [mem_refs_insertRequired] at h
        rcases mem_refs_insertProperty _ _ _ h with h | h
        · exact Or.inl h
        · exact Or.inr (mem_refs_fieldSchemaRef build env _ _ hb hanon
            (mem_refs_add_metadata _ _ h))
      · rcases mem_refs_insertProperty _ _ _ h with h | h
        · exact Or.inl h
        · exact Or.inr (mem_refs_fieldSchemaRef build env _ _ hb hanon
            (mem_refs_add_metadata _ _ h))

theorem mem_refs_handleFieldStruct {r : String} (build : TypeDef → DefaultSchemaRaw)
    (env : List TypeDef) (ra : Option SerdeRename) (docs : String) (fields : List FieldDesc)
    (hb : ∀ u ∈ env, ∀ r2 ∈ refsIn (build u), AllowedBase env r2)
    (hanon : refsIn (build anonEmptyType) = []) :
    ∀ schema : DefaultSchemaRaw, r ∈ refsIn (handleFieldStruct build env ra docs fields schema) →
    r ∈ refsIn schema ∨ AllowedBase env r := by
  have hfold : ∀ (fs : List FieldDesc) (schema : DefaultSchemaRaw),
      r ∈ refsIn (fs.foldl (processNamedField build env ra) schema) →
      r ∈ refsIn schema ∨ AllowedBase env r := by
    intro fs
    induction fs with
    | nil => intro schema h; exact Or.inl h
    | cons f fs ih =>
      intro schema h
      simp only [List.foldl_cons] at h
      rcases ih _ h with h2 | h2
      · exact mem_refs_processNamedField build env ra schema f hb hanon h2
      · exact Or.inr h2
  intro schema h
  rw [handleFieldStruct] at h
  split at h
  · exact hfold _ _ h
  · rcases hfold _ _ h with h2 | h2
    · rw [mem_refs_withDescription] at h2
      exact Or.inl h2
    · exact Or.inr h2

theorem mem_refs_handleUnnamedFieldStruct {r : String} (build : TypeDef → DefaultSchemaRaw)
    (env : List TypeDef) (meta : FieldAnnotations) (fields : List UnnamedFieldDesc)
    (hb : ∀ u ∈ env, ∀ r2 ∈ refsIn (build u), AllowedBase env r2)
    (hanon : refsIn (build anonEmptyType) = []) :
    ∀ schema : DefaultSchemaRaw,
      r ∈ refsIn (handleUnnamedFieldStruct build env meta fields schema) →
      r ∈ refsIn schema ∨ AllowedBase env r := by
  have hstep : ∀ (schema : DefaultSchemaRaw) (x : Nat × UnnamedFieldDesc),
      r ∈ refsIn
        ((fun schema x =>
          let inner_field_id := x.1
          let f := x.2
          if f.skip then schema
          else
            let ty := resolveTy env f.tyIdx
            let schema_ref := fieldSchemaRef build env f.inline f.tyIdx
            if f.flatten then flattenedSchema schema schema_ref
            else
              let s :=
                if f.docs = "" then schema_ref else schema_ref.withDescription (some f.docs)
              let schema := schema.insertProperty (toString inner_field_id) s
              if (ty.required || f.overrideRequired) && !f.overrideOptional then
                schema.insertRequired (toString inner_field_id)
              else schema)
          schema x : DefaultSchemaRaw) →
      r ∈ refsIn schema ∨ AllowedBase env r := by
    intro schema x h
    simp only at h
    split at h
    · exact Or.inl h
    · split at h
      · rw [mem_refs_flattened] at h
        rcases h with h | h
        · exact Or.inl h
        · exact Or.inr (mem_refs_fieldSchemaRef build env _ _ hb hanon h)
      · have hs : ∀ hmem : r ∈ refsIn
            (if x.2.docs = "" then fieldSchemaRef build env x.2.inline x.2.tyIdx
             else (fieldSchemaRef build env x.2.inline x.2.tyIdx).withDescription
               (some x.2.docs)),
            AllowedBase env r := by
          intro hmem
          split at hmem
          · exact mem_refs_fieldSchemaRef build env _ _ hb hanon hmem
          · rw [mem_refs_withDescription] at hmem
            exact mem_refs_fieldSchemaRef build env _ _ hb hanon hmem
        split at h
        · rw [mem_refs_insertRequired] at h
          rcases mem_refs_insertProperty _ _ _ h with h | h
          · exact Or.inl h
          · exact Or.inr (hs h)
        · rcases mem_refs_insertProperty _ _ _ h with h | h
          · exact Or.inl h
          · exact Or.inr (hs h)
  have hfold : ∀ (xs : List (Nat × UnnamedFieldDesc)) (schema : DefaultSchemaRaw),
      r ∈ refsIn (xs.foldl
        (fun schema x =>
          let inner_field_id := x.1
          let f := x.2
          if f.skip then schema
          else
            let ty := resolveTy env f.tyIdx
            let schema_ref := fieldSchemaRef build env f.inline f.tyIdx
            if f.flatten then flattenedSchema schema schema_ref
            else
              let s :=
                if f.docs = "" then schema_ref else schema_ref.withDescription (some f.docs)
              let schema := schema.insertProperty (toString inner_field_id) s
              if (ty.required || f.overrideRequired) && !f.overrideOptional then
                schema.insertRequired (toString inner_field_id)
              else schema)
        schema) →
      r ∈ refsIn schema ∨ AllowedBase env r := by
    intro xs
    induction xs with
    | nil => intro schema h2; exact Or.inl h2
    | cons x xs ih =>
      intro schema h2
      simp only [List.foldl_cons] at h2
      rcases ih _ h2 with h3 | h3
      · exact hstep _ _ h3
      · exact Or.inr h3
  intro schema h
  rcases hfields : fields with _ | ⟨f, rest⟩
  · rw [hfields] at h
    simp only [handleUnnamedFieldStruct] at h
    exact hfold _ _ h
  · rcases hrest : rest with _ | ⟨f2, rest2⟩
    · rw [hfields, hrest] at h
      simp only [handleUnnamedFieldStruct] at h
      split at h
      · rw [mem_refs_applyMetadata] at h
        rw [refsIn_no_refs rfl rfl rfl rfl rfl] at h
        simp at h
      · exact Or.inr (mem_refs_fieldSchemaRef build env _ _ hb hanon
          (mem_refs_add_metadata _ _ h))
    · rw [hfields, hrest] at h
      simp only [handleUnnamedFieldStruct] at h
      exact hfold _ _ h

theorem mem_refs_wrapVariant {r : String} (tagType : SerdeEnumTagType) (evn name : String)
    (docsOpt : Option String) (inner : DefaultSchemaRaw) (ige : Bool)
    (schema : DefaultSchemaRaw)
    (h : r ∈ refsIn (wrapVariant tagType evn name docsOpt inner ige schema)) :
    r ∈ refsIn schema ∨ r ∈ refsIn inner
      ∨ (isTaggedWrap tagType = true ∧ r = "#/definitions/" ++ evn) := by
  cases tagType
  case external =>
    simp only [wrapVariant] at h
    rw [mem_refs_pushAnyOf] at h
    rcases h with h | h
    · exact Or.inl h
    · rw [mem_refs_insertRequired] at h
      rcases mem_refs_insertProperty _ _ _ h with h | h
      · rw [refsIn_no_refs rfl rfl rfl rfl rfl] at h
        simp at h
      · exact Or.inr (Or.inl h)
  case untagged =>
    simp only [wrapVariant] at h
    rw [mem_refs_pushAnyOf] at h
    rcases h with h | h
    · exact Or.inl h
    · exact Or.inr (Or.inl h)
  case internal tag =>
    simp only [wrapVariant] at h
    rw [mem_refs_pushAnyOf] at h
    rcases h with h | h
    · exact Or.inl h
    · rw [mem_refs_insertRequired] at h
      rcases mem_refs_insertProperty _ _ _ h with h | h
      · rw [mem_refs_withName] at h
        rcases mem_refs_withReference _ _ h with h | h
        · exact Or.inr (Or.inr ⟨rfl, h⟩)
        · exact Or.inr (Or.inl h)
      · rw [mem_refs_insertExtension] at h
        rw [refsIn_no_refs rfl rfl rfl rfl rfl] at h
        simp at h
  case adjacent tag content =>
    simp only [wrapVariant] at h
    cases ige
    · simp only [Bool.false_eq_true, if_false] at h
      rw [mem_refs_pushAnyOf] at h
      rcases h with h | h
      · exact Or.inl h
      · rw [mem_refs_insertRequired, mem_refs_insertRequired] at h
        rcases mem_refs_insertProperty _ _ _ h with h | h
        · rcases mem_refs_insertProperty _ _ _ h with h | h
          · rw [mem_refs_withName] at h
            rcases mem_refs_withReference _ _ h with h | h
            · exact Or.inr (Or.inr ⟨rfl, h⟩)
            · rw [refsIn_no_refs rfl rfl rfl rfl rfl] at h
              simp at h
          · rw [refsIn_no_refs rfl rfl rfl rfl rfl] at h
            simp at h
        · exact Or.inr (Or.inl h)
    · simp only [if_true] at h
      rw [mem_refs_pushAnyOf] at h
      rcases h with h | h
      · exact Or.inl h
      · rw [mem_refs_insertRequired] at h
        rcases mem_refs_insertProperty _ _ _ h with h | h
        · rw [mem_refs_withName] at h
          rcases mem_refs_withReference _ _ h with h | h
          · exact Or.inr (Or.inr ⟨rfl, h⟩)
          · rw [refsIn_no_refs rfl rfl rfl rfl rfl] at h
            simp at h
        · rw [refsIn_no_refs rfl rfl rfl rfl rfl] at h
          simp at h

theorem mem_refs_variantAnyOfEntry {r : String} (build : TypeDef → DefaultSchemaRaw)
    (env : List TypeDef) (t : TypeDef) (en : String) (sc : Bool) (v : VariantDesc)
    (hb : ∀ u ∈ env, ∀ r2 ∈ refsIn (build u), AllowedBase env r2)
    (hanon : refsIn (build anonEmptyType) = [])
    (h : r ∈ refsIn (variantAnyOfEntry build env t en sc v)) :
    AllowedBase env r
      ∨ (isTaggedWrap t.tagType = true ∧ r = "#/definitions/" ++ (en ++ v.ident)) := by
  have hwrap : ∀ (inner : DefaultSchemaRaw) (docsOpt : Option String) (ige : Bool),
      r ∈ refsIn (((wrapVariant t.tagType (en ++ v.ident)
          (renameOf t.renameAll v.serdeRename v.ident) docsOpt inner ige
          (.mk {})).any_of).headI) →
      r ∈ refsIn inner
        ∨ (isTaggedWrap t.tagType = true ∧ r = "#/definitions/" ++ (en ++ v.ident)) := by
    intro inner docsOpt ige hmem
    have hpush := wrapVariant_push t.tagType (en ++ v.ident)
      (renameOf t.renameAll v.serdeRename v.ident) docsOpt inner ige (.mk {})
    have hmem2 : r ∈ refsIn (wrapVariant t.tagType (en ++ v.ident)
        (renameOf t.renameAll v.serdeRename v.ident) docsOpt inner ige (.mk {})) := by
      rw [hpush, mem_refs_pushAnyOf]
      exact Or.inr hmem
    rcases mem_refs_wrapVariant _ _ _ _ _ _ _ hmem2 with h2 | h2 | h2
    · rw [refsIn_no_refs rfl rfl rfl rfl rfl] at h2
      simp at h2
    · exact Or.inl h2
    · exact Or.inr h2
  rw [variantAnyOfEntry] at h
  rcases hf : v.fields with _ | fs | fs
  · rw [hf] at h
    simp only at h
    split at h
    · rw [refsIn_no_refs rfl rfl rfl rfl rfl] at h
      simp at h
    · rcases hwrap _ _ _ h with h2 | h2
      · rw [refsIn_no_refs rfl rfl rfl rfl rfl] at h2
        simp at h2
      · exact Or.inr h2
  · rw [hf] at h
    simp only at h
    rcases hwrap _ _ _ h with h2 | h2
    · rcases mem_refs_handleFieldStruct build env t.renameAll "" fs hb hanon _ h2 with h3 | h3
      · rw [mem_refs_applyMetadata] at h3
        rw [refsIn_no_refs rfl rfl rfl rfl rfl] at h3
        simp at h3
      · exact Or.inl h3
    · exact Or.inr h2
  · rw [hf] at h
    simp only at h
    rcases hwrap _ _ _ h with h2 | h2
    · rcases mem_refs_handleUnnamedFieldStruct build env v.meta fs hb hanon _ h2 with h3 | h3
      · rw [refsIn_no_refs rfl rfl rfl rfl rfl] at h3
        simp at h3
      · exact Or.inl h3
    · exact Or.inr h2

theorem mem_refs_handleVariant {r : String} (build : TypeDef → DefaultSchemaRaw)
    (env : List TypeDef) (t : TypeDef) (en : String) (sc osc : Bool)
    (schema : DefaultSchemaRaw) (v : VariantDesc)
    (hb : ∀ u ∈ env, ∀ r2 ∈ refsIn (build u), AllowedBase env r2)
    (hanon : refsIn (build anonEmptyType) = [])
    (h : r ∈ refsIn (handleVariant build env t en sc osc schema v)) :
    r ∈ refsIn schema ∨ AllowedBase env r
      ∨ (isTaggedWrap t.tagType = true ∧ r = "#/definitions/" ++ (en ++ v.ident)) := by
  cases osc
  · rw [handleVariant_push] at h
    rw [mem_refs_pushAnyOf] at h
    rcases h with h | h
    · exact Or.inl h
    · rcases mem_refs_variantAnyOfEntry build env t en sc v hb hanon h with h2 | h2
      · exact Or.inr (Or.inl h2)
      · exact Or.inr (Or.inr h2)
  · rw [handleVariant] at h
    simp only [if_true] at h
    rw [mem_refs_pushEnum] at h
    exact Or.inl h

theorem mem_refs_handleEnum {r : String} (build : TypeDef → DefaultSchemaRaw)
    (env : List TypeDef) (t : TypeDef) (vs : List VariantDesc) (schema : DefaultSchemaRaw)
    (hb : ∀ u ∈ env, ∀ r2 ∈ refsIn (build u), AllowedBase env r2)
    (hanon : refsIn (build anonEmptyType) = [])
    (h : r ∈ refsIn (handleEnum build env t vs schema)) :
    r ∈ refsIn schema ∨ AllowedBase env r
      ∨ (isTaggedWrap t.tagType = true
          ∧ ∃ v ∈ vs.filter (fun v => !v.skip),
              r = "#/definitions/" ++ ((schema.un.name.getD "") ++ v.ident)) := by
  have hfold : ∀ (en : String) (sc osc : Bool) (xs : List VariantDesc)
      (schema2 : DefaultSchemaRaw),
      r ∈ refsIn (xs.foldl (handleVariant build env t en sc osc) schema2) →
      r ∈ refsIn schema2 ∨ AllowedBase env r
        ∨ (isTaggedWrap t.tagType = true
            ∧ ∃ v ∈ xs, r = "#/definitions/" ++ (en ++ v.ident)) := by
    intro en sc osc xs
    induction xs with
    | nil => intro schema2 h2; exact Or.inl h2
    | cons v xs ih =>
      intro schema2 h2
      simp only [List.foldl_cons] at h2
      rcases ih _ h2 with h3 | h3 | ⟨htag, v2, hv2, heq⟩
      · rcases mem_refs_handleVariant build env t en sc osc schema2 v hb hanon h3
          with h4 | h4 | ⟨htag, heq⟩
        · exact Or.inl h4
        · exact Or.inr (Or.inl h4)
        · exact Or.inr (Or.inr ⟨htag, v, by simp, heq⟩)
      · exact Or.inr (Or.inl h3)
      · exact Or.inr (Or.inr ⟨htag, v2, by simp [hv2], heq⟩)
  simp only [handleEnum] at h
  have hname : (if t.meta.docs = ""
      then (if (t.tagType == SerdeEnumTagType.external
            || t.tagType == SerdeEnumTagType.untagged)
            && (vs.filter (fun v => !v.skip)).all isUnitVariant
          then schema.withDataType (some DataType.string) else schema)
      else (if (t.tagType == SerdeEnumTagType.external
            || t.tagType == SerdeEnumTagType.untagged)
            && (vs.filter (fun v => !v.skip)).all isUnitVariant
          then schema.withDataType (some DataType.string)
          else schema).withDescription (some t.meta.docs)).name
      = schema.un.name := by
    split <;> split <;> simp
  rcases hfold _ _ _ _ _ h with h2 | h2 | ⟨htag, v, hv, heq⟩
  · split at h2
    · split at h2
      · rw [mem_refs_withDataType] at h2
        exact Or.inl h2
      · exact Or.inl h2
    · rw [mem_refs_withDescription] at h2
      split at h2
      · rw [mem_refs_withDataType] at h2
        exact Or.inl h2
      · exact Or.inl h2
  · exact Or.inr (Or.inl h2)
  · refine Or.inr (Or.inr ⟨htag, v, hv, ?_⟩)
    rw [hname] at heq
    exact heq

theorem mem_refs_propsGen {r : String} (build : TypeDef → DefaultSchemaRaw)
    (env : List TypeDef) (t : TypeDef) (schema : DefaultSchemaRaw)
    (hb : ∀ u ∈ env, ∀ r2 ∈ refsIn (build u), AllowedBase env r2)
    (hanon : refsIn (build anonEmptyType) = [])
    (h : r ∈ refsIn (propsGen build env t schema)) :
    r ∈ refsIn schema ∨ AllowedBase env r
      ∨ (∃ vs, t.body = .enumBody vs ∧ isTaggedWrap t.tagType = true
          ∧ ∃ v ∈ vs.filter (fun v => !v.skip),
              r = "#/definitions/" ++ ((schema.un.name.getD "") ++ v.ident)) := by
  rcases hbody : t.body with fs | fs | _ | vs
  · rw [propsGen, hbody] at h
    rcases mem_refs_handleFieldStruct build env t.renameAll t.meta.docs fs hb hanon _ h
      with h2 | h2
    · rw [mem_refs_withDataType] at h2
      exact Or.inl h2
    · exact Or.inr (Or.inl h2)
  · rw [propsGen, hbody] at h
    rcases mem_refs_handleUnnamedFieldStruct build env t.meta fs hb hanon _ h with h2 | h2
    · rw [mem_refs_withDataType] at h2
      exact Or.inl h2
    · exact Or.inr (Or.inl h2)
  · rw [propsGen, hbody] at h
    rw [mem_refs_withDataType] at h
    exact Or.inl h
  · rw [propsGen, hbody] at h
    rcases mem_refs_handleEnum build env t vs schema hb hanon h
      with h2 | h2 | ⟨htag, v, hv, heq⟩
    · exact Or.inl h2
    · exact Or.inr (Or.inl h2)
    · exact Or.inr (Or.inr ⟨vs, rfl, htag, v, hv, heq⟩)

theorem refsIn_rawSchema_anon (env : List TypeDef) :
    ∀ fuel : Nat, refsIn (rawSchema env fuel anonEmptyType) = []
  | 0 => refsIn_no_refs rfl rfl rfl rfl rfl
  | _+1 => refsIn_no_refs rfl rfl rfl rfl rfl

theorem refs_rawSchema (env : List TypeDef) :
    ∀ fuel : Nat, ∀ u ∈ env, ∀ r ∈ refsIn (rawSchema env fuel u), AllowedBase env r := by
  intro fuel
  induction fuel with
  | zero =>
    intro u hu r hr
    rw [show rawSchema env 0 u = .mk {} from rfl] at hr
    rw [refsIn_no_refs rfl rfl rfl rfl rfl] at hr
    simp at hr
  | succ fuel ih =>
    intro u hu r hr
    have hraw : rawSchema env (fuel+1) u
        = (propsGen (rawSchema env fuel) env u
            (.mk { name := openApiName u, «example» := u.meta.«example» })).withName
            (openApiName u) := rfl
    rw [hraw, mem_refs_withName] at hr
    rcases mem_refs_propsGen (rawSchema env fuel) env u _ ih (refsIn_rawSchema_anon env fuel) hr
      with h | h | ⟨vs, hbody, htag, v, hv, heq⟩
    · rw [refsIn_no_refs rfl rfl rfl rfl rfl] at h
      simp at h
    · exact h
    · refine ⟨(openApiName u).getD "" ++ v.ident, Or.inr ?_, heq⟩
      rw [synthRefNames, List.mem_flatten]
      refine ⟨synthVariantNames u, List.mem_map_of_mem _ hu, ?_⟩
      simp only [synthVariantNames, hbody, htag, if_true]
      exact List.mem_map_of_mem _ hv

theorem string_append_left_cancel {a b c : String} (h : a ++ b = a ++ c) : b = c := by
  have h2 := congrArg String.data h
  simp [String.data_append] at h2
  exact String.ext h2

/-- C7: a type explicitly marked inline never receives a name — its raw
schema is anonymous at every nesting depth (fuel) — and, provided its
canonical name does not collide with the registered name of a non-inline
type or with a synthesized variant-definition name, no reference string
pointing at its canonical name occurs anywhere, at any depth, inside the
raw schema of any type of the environment; moreover a field marked inline
uses the raw schema of its type rather than a reference node. -/
theorem C7_inline_never_referenced (env : List TypeDef) (t : TypeDef)
    (hinl : t.isInline = true)
    (hfresh : canonicalName t ∉ definedRefNames env ++ synthRefNames env) :
    (∀ fuel : Nat, (rawSchema env fuel t).name = none)
    ∧ (∀ fuel : Nat, ∀ u ∈ env,
        ("#/definitions/" ++ canonicalName t) ∉ refsIn (rawSchema env fuel u))
    ∧ (∀ (build : TypeDef → DefaultSchemaRaw) (idx : Nat),
        fieldSchemaRef build env true idx = build (resolveTy env idx)) := by
  refine ⟨?_, ?_, ?_⟩
  · intro fuel
    cases fuel with
    | zero => rfl
    | succ fuel =>
      have hraw : rawSchema env (fuel+1) t
          = (propsGen (rawSchema env fuel) env t
              (.mk { name := openApiName t, «example» := t.meta.«example» })).withName
              (openApiName t) := rfl
      rw [hraw, DefaultSchemaRaw.name_un, DefaultSchemaRaw.un_withName]
      simp [openApiName, hinl]
  · intro fuel u hu hmem
    rcases refs_rawSchema env fuel u hu _ hmem with ⟨n, hn, heq⟩
    have hnt : canonicalName t = n := string_append_left_cancel heq
    rw [hnt] at hfresh
    rcases hn with hn | hn
    · exact hfresh (List.mem_append_left _ hn)
    · exact hfresh (List.mem_append_right _ hn)
  · intro build idx
    rfl

/-- Witness for C7: the inline struct of the witness environment stays
anonymous, is never referenced from any of the three environment types, and
inline fields resolve to the raw schema. -/
theorem C7_inline_never_referenced_witness :
    (resolveTy c7Env 0).isInline = true
      ∧ canonicalName (resolveTy c7Env 0) ∉ definedRefNames c7Env ++ synthRefNames c7Env
      ∧ ((∀ fuel : Nat, (rawSchema c7Env fuel (resolveTy c7Env 0)).name = none)
         ∧ (∀ fuel : Nat, ∀ u ∈ c7Env,
             ("#/definitions/" ++ canonicalName (resolveTy c7Env 0)) ∉ refsIn (rawSchema c7Env fuel u))
         ∧ (∀ (build : TypeDef → DefaultSchemaRaw) (idx : Nat),
             fieldSchemaRef build c7Env true idx = build (resolveTy c7Env idx))) :=
  ⟨rfl, by decide, C7_inline_never_referenced c7Env (resolveTy c7Env 0) rfl (by decide)⟩
